import Mathlib

/-!
Verification of the synth parsing engine (Markdown and JS/TS front ends).

The source is embedded shallowly: source text is a list of bytes
(`List Nat`), Rust loops become fuel-indexed structural recursions, and
fallible operations return `Option` / `Except`.  Entry points mirror
`crates/wasm-md/src/parser_v2.rs`, `crates/wasm-js/src/lexer.rs`,
`crates/wasm-js/src/parser.rs` and `crates/core/src/tree.rs`.
-/

namespace Synth

/-- Little-endian 4-byte encoding of a `u32` value, as `to_le_bytes` of an
`as u32` cast produces (the cast truncates mod 2^32, which the byte
decomposition below realises directly). -/
def le4 (n : Nat) : List Nat :=
  [n % 256, n / 256 % 256, n / 65536 % 256, n / 16777216 % 256]

theorem le4_length (n : Nat) : (le4 n).length = 4 := rfl

theorem le4_zero : le4 0 = [0, 0, 0, 0] := rfl

/-- First occurrence of byte `t` in a list, as a relative index
(models `memchr::memchr`). -/
def findFrom (t : Nat) : List Nat → Option Nat
  | [] => none
  | b :: r => if b = t then some 0 else (findFrom t r).map (· + 1)

/-- Count of occurrences of byte `t` in the byte range `[a, b)` of `src`
(models `memchr::memchr_iter(..).count()`). -/
def countInRange (t : Nat) (src : List Nat) (a b : Nat) : Nat :=
  ((src.drop a).take (b - a)).count t

theorem findFrom_le_length (t : Nat) (l : List Nat) :
    ∀ i, findFrom t l = some i → i < l.length := by
  induction l with
  | nil => intro i h; simp [findFrom] at h
  | cons b r ih =>
    intro i h
    simp only [findFrom] at h
    by_cases hb : b = t
    · rw [if_pos hb] at h
      have : i = 0 := by exact (Option.some_inj.mp h).symm
      simp [this]
    · rw [if_neg hb, Option.map_eq_some'] at h
      obtain ⟨j, hj, hji⟩ := h
      have := ih j hj
      simp only [List.length_cons]
      omega

/-! ## Markdown front end: `crates/wasm-md/src/parser_v2.rs`

The parser state is the pair of the byte cursor `pos` and the 1-based
`line` counter; the source is passed explicitly.  Loops of the source are
fuel-indexed; every entry point supplies fuel `src.length + 1`, shown
sufficient below because each loop iteration advances `pos`. -/

/-- Byte slice `&src[a..b]` (all slice sites of both front ends fall on
ASCII boundaries, so byte-level slicing models `str` slicing). -/
def slice (src : List Nat) (a b : Nat) : List Nat := (src.drop a).take (b - a)

namespace MD

/-- Node type constants from `parser_v2.rs` (`pub mod node_type`). -/
def tROOT : Nat := 0
def tHEADING : Nat := 1
def tPARAGRAPH : Nat := 2
def tCODE : Nat := 3
def tTHEMATIC : Nat := 4
def tBLOCKQUOTE : Nat := 5
def tLISTITEM : Nat := 6

/-- The 24-byte `BinaryNode` record of `parser_v2.rs` (`#[repr(C)]`),
padding omitted from the structure and re-inserted at serialization. -/
structure BinaryNode where
  nodeType : Nat
  flags : Nat
  parent : Nat
  textStart : Nat
  textLen : Nat
  spanStart : Nat
  spanEnd : Nat
deriving Repr, DecidableEq

/-- `BinaryNode::default()`: all fields zero. -/
def BinaryNode.zero : BinaryNode := ⟨0, 0, 0, 0, 0, 0, 0⟩

/-- Mutable scanner state of `MarkdownParserV2` (`pos` and `line`). -/
structure St where
  pos : Nat
  line : Nat
deriving Repr, DecidableEq

/-- Fueled loop of `skip_horizontal_space`: advance over spaces and tabs. -/
def skipHSF (src : List Nat) : Nat → Nat → Nat
  | 0, p => p
  | f + 1, p =>
    match src.get? p with
    | some b => if b = 32 ∨ b = 9 then skipHSF src f (p + 1) else p
    | none => p

/-- `skip_horizontal_space` (the loop always stops within `length + 1`
steps because each step consumes one existing byte). -/
def skipHS (src : List Nat) (p : Nat) : Nat := skipHSF src (src.length + 1) p

/-- `find_newline`: first newline at or after `pos`, else `src.length`. -/
def findNewline (src : List Nat) (p : Nat) : Nat :=
  match findFrom 10 (src.drop p) with
  | some i => p + i
  | none => src.length

/-- `skip_to_newline`: jump to the newline; if inside the buffer, step over
it and count the line. -/
def skipToNewline (src : List Nat) (st : St) : St :=
  let e := findNewline src st.pos
  if e < src.length then ⟨e + 1, st.line + 1⟩ else ⟨e, st.line⟩

/-- `is_code_fence`: two more backticks after the current one. -/
def isCodeFence (src : List Nat) (p : Nat) : Prop :=
  src.get? (p + 1) = some 96 ∧ src.get? (p + 2) = some 96

instance (src : List Nat) (p : Nat) : Decidable (isCodeFence src p) :=
  inferInstanceAs (Decidable (_ ∧ _))

/-- Fueled loop of `is_thematic_break`; fuel exhaustion coincides with the
loop running off the end of the buffer, so it returns the same `count >= 3`
test as the loop exit. -/
def itbF (src : List Nat) (marker : Nat) : Nat → Nat → Nat → Bool
  | 0, _, count => decide (3 ≤ count)
  | f + 1, i, count =>
    match src.get? i with
    | none => decide (3 ≤ count)
    | some b =>
      if b = marker then itbF src marker f (i + 1) (count + 1)
      else if b = 32 ∨ b = 9 then itbF src marker f (i + 1) count
      else if b = 10 then decide (3 ≤ count)
      else false

/-- `is_thematic_break` (the source indexes `bytes[pos]` under the caller's
`pos < len` guard; out of range yields `false` here). -/
def isThematicBreak (src : List Nat) (p : Nat) : Bool :=
  match src.get? p with
  | some m =>
    if m = 45 ∨ m = 42 ∨ m = 95 then itbF src m (src.length + 1) p 0
    else false
  | none => false

/-- Fueled loop of `is_ordered_list`; running off the end returns `false`
exactly as the source's fall-through. -/
def iolF (src : List Nat) : Nat → Nat → Bool
  | 0, _ => false
  | f + 1, i =>
    match src.get? i with
    | none => false
    | some b =>
      if 48 ≤ b ∧ b ≤ 57 then iolF src f (i + 1)
      else if b = 46 ∨ b = 41 then decide (src.get? (i + 1) = some 32)
      else false

/-- `is_ordered_list`. -/
def isOrderedList (src : List Nat) (p : Nat) : Bool := iolF src (src.length + 1) p

/-- Heading prefix loop: `while current == Some(b'#') && depth < 6`;
returns the new position and the depth. -/
def headDepthF (src : List Nat) : Nat → Nat → Nat → Nat × Nat
  | 0, p, d => (p, d)
  | f + 1, p, d =>
    if src.get? p = some 35 ∧ d < 6 then headDepthF src f (p + 1) (d + 1)
    else (p, d)

/-- Trailing space/tab trim of the heading text:
`while len > 0 && byte(text_start + len - 1) is space/tab { len -= 1 }`. -/
def trimTrailF (src : List Nat) (textStart : Nat) : Nat → Nat → Nat
  | 0, len => len
  | f + 1, len =>
    if 0 < len ∧ (src.get? (textStart + len - 1) = some 32 ∨
                  src.get? (textStart + len - 1) = some 9) then
      trimTrailF src textStart f (len - 1)
    else len

/-- The trim loop runs at most `len` times, so fuel `len` is exact. -/
def trimTrail (src : List Nat) (textStart len : Nat) : Nat :=
  trimTrailF src textStart len len

/-- Paragraph accumulation loop, shared text of `scan_paragraph_node` and
`scan_paragraph_binary`: repeatedly `skip_to_newline` until end of input or
a competing block-starter byte begins the next line. -/
def paraLoopF (src : List Nat) : Nat → St → St
  | 0, st => st
  | f + 1, st =>
    let st1 := skipToNewline src st
    if src.length ≤ st1.pos then st1
    else
      match src.get? st1.pos with
      | none => st1
      | some b =>
        if b = 10 ∨ b = 35 ∨ b = 62 ∨ b = 45 ∨ b = 42 ∨ b = 43 ∨ b = 96 then st1
        else if 48 ≤ b ∧ b ≤ 57 ∧ isOrderedList src st1.pos then st1
        else paraLoopF src f st1

/-- Text end of a paragraph: drop a trailing newline byte. -/
def paraTextEnd (src : List Nat) (p : Nat) : Nat :=
  if 0 < p ∧ src.get? (p - 1) = some 10 then p - 1 else p

/-- Backtick search of the code-block scanners.  Returns
`(some codeEnd, st)` when the source does (closing fence found, or no
backtick remains so the rest is consumed), and `(none, st)` when the
search runs off the end of the buffer, which is where
`scan_code_block_binary` falls out of its loop. -/
def codeSearchF (src : List Nat) : Nat → St → Option Nat × St
  | 0, st => (none, st)
  | f + 1, st =>
    if src.length ≤ st.pos then (none, st)
    else
      match findFrom 96 (src.drop st.pos) with
      | some rel =>
        let tick := st.pos + rel
        if src.get? (tick + 1) = some 96 ∧ src.get? (tick + 2) = some 96 then
          let nl := countInRange 10 src st.pos tick
          let st1 : St := ⟨tick + 3, st.line + nl⟩
          (some tick, skipToNewline src st1)
        else codeSearchF src f ⟨tick + 1, st.line⟩
      | none =>
        let nl := countInRange 10 src st.pos src.length
        (some src.length, ⟨src.length, st.line + nl⟩)

/-- ASCII whitespace (models the whitespace test of `str::trim`; the
scanner's info strings are sliced between ASCII fence/newline bytes and the
claims only exercise ASCII). -/
def isWsByte (b : Nat) : Bool := b = 32 ∨ b = 9 ∨ b = 10 ∨ b = 13

/-- Trim of `str::trim` on a byte slice. -/
def trimBytes (l : List Nat) : List Nat :=
  ((l.dropWhile isWsByte).reverse.dropWhile isWsByte).reverse

/-- Digit run of `scan_list_item_*`:
`while current is ascii digit { pos += 1 }`. -/
def digitRunF (src : List Nat) : Nat → Nat → Nat
  | 0, p => p
  | f + 1, p =>
    match src.get? p with
    | some b => if 48 ≤ b ∧ b ≤ 57 then digitRunF src f (p + 1) else p
    | none => p

def digitRun (src : List Nat) (p : Nat) : Nat := digitRunF src (src.length + 1) p

/-- Values of the `serde_json::Value` payloads the scanner stores. -/
inductive MVal where
  | s (v : List Nat)
  | n (v : Nat)
  | b (v : Bool)
deriving Repr, DecidableEq

/-- `Span` of `crates/core/src/position.rs`, flattened through
`Span::from_coords`. -/
structure Span6 where
  sLine : Nat
  sCol : Nat
  sOff : Nat
  eLine : Nat
  eCol : Nat
  eOff : Nat
deriving Repr, DecidableEq

/-- Arena node of `crates/core/src/tree.rs` (the `data` map is carried as
an association list in insertion order; claims read it through lookup). -/
structure TNode where
  id : Nat
  nodeType : String
  parent : Option Nat
  children : List Nat
  span : Option Span6
  data : Option (List (String × MVal))
deriving Repr, DecidableEq

/-- `Node::new(0, ty)`. -/
def TNode.mk0 (ty : String) : TNode := ⟨0, ty, none, [], none, none⟩

/-- `scan_heading_node`.  Counts up to six `#`, requires space, newline or
end of input next, otherwise resets the cursor to the block start and
rescans as a paragraph. -/
def scanParagraphNode (src : List Nat) (startPos startLine : Nat) (st : St) :
    Option TNode × St :=
  let st1 := paraLoopF src (src.length + 1) st
  let textEnd := paraTextEnd src st1.pos
  let text := slice src startPos textEnd
  let data : List (String × MVal) := [("value", .s text)]
  let span : Span6 :=
    ⟨startLine, 1, startPos, max (st1.line - 1) startLine, textEnd - startPos, textEnd⟩
  (some { TNode.mk0 "paragraph" with span := some span, data := some data }, st1)

def scanHeadingNode (src : List Nat) (startPos startLine : Nat) (st : St) :
    Option TNode × St :=
  let pd := headDepthF src 6 st.pos 0
  let p1 := pd.1
  let depth := pd.2
  if src.get? p1 = some 32 ∨ src.get? p1 = some 10 ∨ src.get? p1 = none then
    let p2 := skipHS src p1
    let textStart := p2
    let textEnd := findNewline src p2
    let len := trimTrail src textStart (textEnd - textStart)
    let text := slice src textStart (textStart + len)
    let st2 := skipToNewline src ⟨p2, st.line⟩
    let data : List (String × MVal) := [("depth", .n depth), ("value", .s text)]
    let span : Span6 :=
      ⟨startLine, 1, startPos, max (st2.line - 1) startLine, textEnd - startPos, textEnd⟩
    (some { TNode.mk0 "heading" with span := some span, data := some data }, st2)
  else
    scanParagraphNode src startPos startLine ⟨startPos, st.line⟩

def scanCodeNode (src : List Nat) (startPos startLine : Nat) (st : St) :
    Option TNode × St :=
  let p1 := st.pos + 3
  let infoStart := p1
  let infoEnd := findNewline src p1
  let lang := trimBytes (slice src infoStart infoEnd)
  let st1 := skipToNewline src ⟨p1, st.line⟩
  let codeStart := st1.pos
  let r := codeSearchF src (src.length + 1) st1
  let codeEnd := r.1.getD src.length
  let st2 := r.2
  let code := slice src codeStart codeEnd
  let data : List (String × MVal) :=
    (if lang ≠ [] then [("lang", MVal.s lang)] else []) ++ [("value", .s code)]
  let span : Span6 := ⟨startLine, 1, startPos, st2.line, 3, st2.pos⟩
  (some { TNode.mk0 "code" with span := some span, data := some data }, st2)

def scanThematicNode (src : List Nat) (startLine : Nat) (st : St) :
    Option TNode × St :=
  let startPos := st.pos
  let st1 := skipToNewline src st
  let span : Span6 := ⟨startLine, 1, startPos, startLine, 3, st1.pos⟩
  (some { TNode.mk0 "thematicBreak" with span := some span }, st1)

def scanBlockquoteNode (src : List Nat) (startPos startLine : Nat) (st : St) :
    Option TNode × St :=
  let p1 := st.pos + 1
  let p2 := skipHS src p1
  let textStart := p2
  let textEnd := findNewline src p2
  let text := slice src textStart textEnd
  let st1 := skipToNewline src ⟨p2, st.line⟩
  let data : List (String × MVal) := [("value", .s text)]
  let span : Span6 :=
    ⟨startLine, 1, startPos, max (st1.line - 1) startLine, textEnd - startPos, textEnd⟩
  (some { TNode.mk0 "blockquote" with span := some span, data := some data }, st1)

/-- Task-marker test of `scan_list_item_node`: `[x]`, `[X]` or `[ ]`
immediately at `p2`; returns the marker and the position after it.  The
source's `if let (Some(mark), Some(b']'))` is rendered as the `]` test at
`p2 + 2` (whose success entails that the byte at `p2 + 1` exists, read
here with `getD`). -/
def taskMark (src : List Nat) (p2 : Nat) : Option Bool × Nat :=
  if src.get? p2 = some 91 then
    if src.get? (p2 + 2) = some 93 then
      let mark := src.getD (p2 + 1) 0
      if mark = 120 ∨ mark = 88 then (some true, skipHS src (p2 + 3))
      else if mark = 32 then (some false, skipHS src (p2 + 3))
      else (none, p2)
    else (none, p2)
  else (none, p2)

def scanListItemNode (src : List Nat) (startPos startLine : Nat) (st : St) :
    Option TNode × St :=
  let first := src.getD st.pos 0
  let ordered := 48 ≤ first ∧ first ≤ 57
  let pos1 := if 48 ≤ first ∧ first ≤ 57 then digitRun src st.pos + 1 else st.pos + 1
  let p2 := skipHS src pos1
  let cm := taskMark src p2
  let checked := cm.1
  let p3 := cm.2
  let textStart := p3
  let textEnd := findNewline src p3
  let text := slice src textStart textEnd
  let st1 := skipToNewline src ⟨p3, st.line⟩
  let data : List (String × MVal) :=
    [("ordered", .b (decide ordered)), ("value", .s text)] ++
      (match checked with
       | some c => [("checked", MVal.b c)]
       | none => [])
  let span : Span6 :=
    ⟨startLine, 1, startPos, max (st1.line - 1) startLine, textEnd - startPos, textEnd⟩
  (some { TNode.mk0 "listItem" with span := some span, data := some data }, st1)

/-- `scan_block_to_node` dispatch (its `SynthResult` wrapper is always
`Ok` in the source — every return site is `Ok(..)` — so the scanner is
modelled without it). -/
def scanBlockToNode (src : List Nat) (st0 : St) : Option TNode × St :=
  let st : St := ⟨skipHS src st0.pos, st0.line⟩
  if src.length ≤ st.pos then (none, st)
  else
    match src.get? st.pos with
    | none => (none, st)
    | some b =>
      let startLine := st.line
      let startPos := st.pos
      if b = 10 then (none, ⟨st.pos + 1, st.line + 1⟩)
      else if b = 35 then scanHeadingNode src startPos startLine st
      else if b = 96 ∧ isCodeFence src st.pos then scanCodeNode src startPos startLine st
      else if (b = 45 ∨ b = 42 ∨ b = 95) ∧ isThematicBreak src st.pos then
        scanThematicNode src startLine st
      else if b = 45 ∨ b = 42 ∨ b = 43 then scanListItemNode src startPos startLine st
      else if b = 62 then scanBlockquoteNode src startPos startLine st
      else if 48 ≤ b ∧ b ≤ 57 ∧ isOrderedList src st.pos then
        scanListItemNode src startPos startLine st
      else scanParagraphNode src startPos startLine st

/-! ### Binary block scanners -/

def scanParagraphBinary (src : List Nat) (startPos startLine : Nat) (st : St) :
    Option BinaryNode × St :=
  let st1 := paraLoopF src (src.length + 1) st
  let textEnd := paraTextEnd src st1.pos
  (some { BinaryNode.zero with
            nodeType := tPARAGRAPH, parent := 0, textStart := startPos,
            textLen := textEnd - startPos, spanStart := startLine,
            spanEnd := st1.line },
   st1)

def scanHeadingBinary (src : List Nat) (startPos startLine : Nat) (st : St) :
    Option BinaryNode × St :=
  let pd := headDepthF src 6 st.pos 0
  let p1 := pd.1
  let depth := pd.2
  if src.get? p1 = some 32 ∨ src.get? p1 = some 10 ∨ src.get? p1 = none then
    let p2 := skipHS src p1
    let textStart := p2
    let textEnd := findNewline src p2
    let len := trimTrail src textStart (textEnd - textStart)
    let st2 := skipToNewline src ⟨p2, st.line⟩
    (some { BinaryNode.zero with
              nodeType := tHEADING, flags := depth, parent := 0,
              textStart := textStart, textLen := len,
              spanStart := startLine, spanEnd := st2.line },
     st2)
  else
    scanParagraphBinary src startPos startLine ⟨startPos, st.line⟩

def scanCodeBinary (src : List Nat) (_startPos startLine : Nat) (st : St) :
    Option BinaryNode × St :=
  let p1 := st.pos + 3
  let infoStart := p1
  let infoEnd := findNewline src p1
  let langLen := min (infoEnd - infoStart) 255
  let st1 := skipToNewline src ⟨p1, st.line⟩
  let codeStart := st1.pos
  let r := codeSearchF src (src.length + 1) st1
  let st2 := r.2
  match r.1 with
  | some codeEnd =>
    (some { BinaryNode.zero with
              nodeType := tCODE, flags := langLen, parent := 0,
              textStart := codeStart, textLen := codeEnd - codeStart,
              spanStart := startLine, spanEnd := st2.line },
     st2)
  | none => (none, st2)

def scanThematicBinary (src : List Nat) (startLine : Nat) (st : St) :
    Option BinaryNode × St :=
  let startPos := st.pos
  let st1 := skipToNewline src st
  (some { BinaryNode.zero with
            nodeType := tTHEMATIC, parent := 0, textStart := startPos,
            spanStart := startLine, spanEnd := startLine },
   st1)

def scanBlockquoteBinary (src : List Nat) (_startPos startLine : Nat) (st : St) :
    Option BinaryNode × St :=
  let p1 := st.pos + 1
  let p2 := skipHS src p1
  let textStart := p2
  let textEnd := findNewline src p2
  let st1 := skipToNewline src ⟨p2, st.line⟩
  (some { BinaryNode.zero with
            nodeType := tBLOCKQUOTE, parent := 0, textStart := textStart,
            textLen := textEnd - textStart, spanStart := startLine,
            spanEnd := st1.line },
   st1)

/-- Flags and post-marker position of `scan_list_item_binary`: bit 0 is
`ordered`, bit 1 a checked task, bit 2 an unchecked task. -/
def taskFlags (src : List Nat) (flags0 p2 : Nat) : Nat × Nat :=
  if src.get? p2 = some 91 then
    if src.get? (p2 + 2) = some 93 then
      let mark := src.getD (p2 + 1) 0
      let add : Nat := if mark = 120 ∨ mark = 88 then 2 else if mark = 32 then 4 else 0
      let fl := Nat.lor flags0 add
      if Nat.land fl 6 ≠ 0 then (fl, skipHS src (p2 + 3)) else (fl, p2)
    else (flags0, p2)
  else (flags0, p2)

def scanListItemBinary (src : List Nat) (_startPos startLine : Nat) (st : St) :
    Option BinaryNode × St :=
  let first := src.getD st.pos 0
  let pos1 := if 48 ≤ first ∧ first ≤ 57 then digitRun src st.pos + 1 else st.pos + 1
  let p2 := skipHS src pos1
  let flags0 : Nat := if 48 ≤ first ∧ first ≤ 57 then 1 else 0
  let fp := taskFlags src flags0 p2
  let flags := fp.1
  let p3 := fp.2
  let textStart := p3
  let textEnd := findNewline src p3
  let st1 := skipToNewline src ⟨p3, st.line⟩
  (some { BinaryNode.zero with
            nodeType := tLISTITEM, flags := flags, parent := 0,
            textStart := textStart, textLen := textEnd - textStart,
            spanStart := startLine, spanEnd := st1.line },
   st1)

/-- `scan_block_to_binary` dispatch. -/
def scanBlockToBinary (src : List Nat) (st0 : St) : Option BinaryNode × St :=
  let st : St := ⟨skipHS src st0.pos, st0.line⟩
  if src.length ≤ st.pos then (none, st)
  else
    match src.get? st.pos with
    | none => (none, st)
    | some b =>
      let startLine := st.line
      let startPos := st.pos
      if b = 10 then (none, ⟨st.pos + 1, st.line + 1⟩)
      else if b = 35 then scanHeadingBinary src startPos startLine st
      else if b = 96 ∧ isCodeFence src st.pos then scanCodeBinary src startPos startLine st
      else if (b = 45 ∨ b = 42 ∨ b = 95) ∧ isThematicBreak src st.pos then
        scanThematicBinary src startLine st
      else if b = 45 ∨ b = 42 ∨ b = 43 then scanListItemBinary src startPos startLine st
      else if b = 62 then scanBlockquoteBinary src startPos startLine st
      else if 48 ≤ b ∧ b ≤ 57 ∧ isOrderedList src st.pos then
        scanListItemBinary src startPos startLine st
      else scanParagraphBinary src startPos startLine st

/-! ### Tree construction (`crates/core/src/tree.rs`) and the entry
points of `parser_v2.rs` / `wasm-md/src/lib.rs`. -/

/-- Error type of `crates/core/src/error.rs` (only the arena lookup error
can be produced by the functions the parser uses). -/
inductive SynthErr where
  | parseError
  | invalidNodeId (id : Nat)
  | treeStructure
  | serialization
deriving Repr, DecidableEq

/-- The root node placed by `Tree::new`. -/
def rootNode : TNode := ⟨0, "root", none, [], none, none⟩

/-- `Tree::add_node`: append with the id set to the arena index. -/
def addNode (t : List TNode) (n : TNode) : Nat × List TNode :=
  (t.length, t ++ [{ n with id := t.length }])

/-- `Tree::add_child`: set the child's parent, then push the child id onto
the parent's `children`; a missing id is the typed `InvalidNodeId` error. -/
def addChild (t : List TNode) (parentId childId : Nat) :
    Except SynthErr (List TNode) :=
  match t.get? childId with
  | none => .error (.invalidNodeId childId)
  | some cn =>
    let t1 := t.set childId { cn with parent := some parentId }
    match t1.get? parentId with
    | none => .error (.invalidNodeId parentId)
    | some pn => .ok (t1.set parentId { pn with children := pn.children ++ [childId] })

/-- Main loop of `MarkdownParserV2::parse` (tree mode), fueled. -/
def mdParseLoopF (src : List Nat) : Nat → St → List TNode →
    Option (Except SynthErr (List TNode))
  | 0, _, _ => none
  | f + 1, st, t =>
    if st.pos < src.length then
      let r := scanBlockToNode src st
      match r.1 with
      | some node =>
        let it := addNode t node
        match addChild it.2 0 it.1 with
        | .error e => some (.error e)
        | .ok t2 => mdParseLoopF src f r.2 t2
      | none => mdParseLoopF src f r.2 t
    else some (.ok t)

/-- `parse(markdown)`: tree-mode parse from position 0, line 1, with the
`Tree::new` root already in the arena. -/
def mdParseF (src : List Nat) (fuel : Nat) : Option (Except SynthErr (List TNode)) :=
  mdParseLoopF src fuel ⟨0, 1⟩ [rootNode]

/-- Main loop of `MarkdownParserV2::parse_binary`, fueled; collects the
emitted records in push order. -/
def mdBinLoopF (src : List Nat) : Nat → St → List BinaryNode →
    Option (List BinaryNode × St)
  | 0, _, _ => none
  | f + 1, st, acc =>
    if st.pos < src.length then
      let r := scanBlockToBinary src st
      match r.1 with
      | some n => mdBinLoopF src f r.2 (acc ++ [n])
      | none => mdBinLoopF src f r.2 acc
    else some (acc, st)

/-- Serialization of one 24-byte record, little endian with two padding
zero bytes, exactly as `parse_binary` writes it. -/
def binRecord (n : BinaryNode) : List Nat :=
  [n.nodeType, n.flags, 0, 0] ++ le4 n.parent ++ le4 n.textStart ++
    le4 n.textLen ++ le4 n.spanStart ++ le4 n.spanEnd

/-- `parse_binary(markdown)`: root record first (its `span_end` patched to
the final line), 8-byte header `[node_count, source_len]`, then the
24-byte records. -/
def mdParseBinaryF (src : List Nat) (fuel : Nat) : Option (List Nat) :=
  (mdBinLoopF src fuel ⟨0, 1⟩ []).map (fun r =>
    let root : BinaryNode :=
      { BinaryNode.zero with
          nodeType := tROOT, textLen := src.length, spanStart := 1,
          spanEnd := r.2.line }
    let nodes := root :: r.1
    le4 nodes.length ++ le4 src.length ++ (nodes.map binRecord).flatten)

/-- Detector for the one point where the two output modes diverge: a
block where the tree scanner emits a node but the binary scanner emits no
record (the backtick search of an unclosed code fence running off the end
of the input).  Built from the two source scanners themselves. -/
def mdMismatchF (src : List Nat) : Nat → St → Bool
  | 0, _ => false
  | f + 1, st =>
    if st.pos < src.length then
      let rn := scanBlockToNode src st
      let rb := scanBlockToBinary src st
      if rn.1.isSome ∧ ¬ rb.1.isSome then true else mdMismatchF src f rb.2
    else false

/-- Whether the parse of `src` hits the diverging block. -/
def mdMismatch (src : List Nat) : Bool := mdMismatchF src (src.length + 1) ⟨0, 1⟩

/-- Main loop of `MarkdownParserV2::parse_count`, fueled. -/
def mdCountLoopF (src : List Nat) : Nat → St → Nat → Option Nat
  | 0, _, _ => none
  | f + 1, st, count =>
    if st.pos < src.length then
      let r := scanBlockToBinary src st
      mdCountLoopF src f r.2 (if r.1.isSome then count + 1 else count)
    else some count

/-- `parseCount(markdown)`: starts at 1 for the root. -/
def mdParseCountF (src : List Nat) (fuel : Nat) : Option Nat :=
  mdCountLoopF src fuel ⟨0, 1⟩ 1

end MD

/-! ## JS/TS front end, lexer: `crates/wasm-js/src/lexer.rs`

Token kinds are the `#[repr(u8)]` discriminants of `TokenKind`, in
declaration order starting at 1. -/

namespace JS

namespace TK

def identifier : Nat := 1
def number : Nat := 2
def string : Nat := 3
def template : Nat := 4
def regex : Nat := 5
def bigInt : Nat := 6
def kwAwait : Nat := 7
def kwBreak : Nat := 8
def kwCase : Nat := 9
def kwCatch : Nat := 10
def kwClass : Nat := 11
def kwConst : Nat := 12
def kwContinue : Nat := 13
def kwDebugger : Nat := 14
def kwDefault : Nat := 15
def kwDelete : Nat := 16
def kwDo : Nat := 17
def kwElse : Nat := 18
def kwEnum : Nat := 19
def kwExport : Nat := 20
def kwExtends : Nat := 21
def kwFalse : Nat := 22
def kwFinally : Nat := 23
def kwFor : Nat := 24
def kwFunction : Nat := 25
def kwIf : Nat := 26
def kwImport : Nat := 27
def kwIn : Nat := 28
def kwInstanceof : Nat := 29
def kwLet : Nat := 30
def kwNew : Nat := 31
def kwNull : Nat := 32
def kwReturn : Nat := 33
def kwSuper : Nat := 34
def kwSwitch : Nat := 35
def kwThis : Nat := 36
def kwThrow : Nat := 37
def kwTrue : Nat := 38
def kwTry : Nat := 39
def kwTypeof : Nat := 40
def kwVar : Nat := 41
def kwVoid : Nat := 42
def kwWhile : Nat := 43
def kwWith : Nat := 44
def kwYield : Nat := 45
def kwAs : Nat := 46
def kwAsync : Nat := 47
def kwFrom : Nat := 48
def kwGet : Nat := 49
def kwOf : Nat := 50
def kwSet : Nat := 51
def kwStatic : Nat := 52
def kwType : Nat := 53
def kwInterface : Nat := 54
def kwImplements : Nat := 55
def kwPrivate : Nat := 56
def kwProtected : Nat := 57
def kwPublic : Nat := 58
def kwReadonly : Nat := 59
def kwDeclare : Nat := 60
def kwAbstract : Nat := 61
def kwNamespace : Nat := 62
def kwModule : Nat := 63
def lbrace : Nat := 64
def rbrace : Nat := 65
def lparen : Nat := 66
def rparen : Nat := 67
def lbracket : Nat := 68
def rbracket : Nat := 69
def dot : Nat := 70
def dotDotDot : Nat := 71
def semicolon : Nat := 72
def comma : Nat := 73
def colon : Nat := 74
def question : Nat := 75
def questionDot : Nat := 76
def questionQuestion : Nat := 77
def arrow : Nat := 78
def atSign : Nat := 79
def plus : Nat := 80
def minus : Nat := 81
def star : Nat := 82
def starStar : Nat := 83
def slash : Nat := 84
def percent : Nat := 85
def plusPlus : Nat := 86
def minusMinus : Nat := 87
def ltLt : Nat := 88
def gtGt : Nat := 89
def gtGtGt : Nat := 90
def amp : Nat := 91
def pipe : Nat := 92
def caret : Nat := 93
def tilde : Nat := 94
def bang : Nat := 95
def lt : Nat := 96
def gt : Nat := 97
def ltEq : Nat := 98
def gtEq : Nat := 99
def eqEq : Nat := 100
def bangEq : Nat := 101
def eqEqEq : Nat := 102
def bangEqEq : Nat := 103
def ampAmp : Nat := 104
def pipePipe : Nat := 105
def eq : Nat := 106
def plusEq : Nat := 107
def minusEq : Nat := 108
def starEq : Nat := 109
def slashEq : Nat := 110
def percentEq : Nat := 111
def starStarEq : Nat := 112
def ltLtEq : Nat := 113
def gtGtEq : Nat := 114
def gtGtGtEq : Nat := 115
def ampEq : Nat := 116
def pipeEq : Nat := 117
def caretEq : Nat := 118
def ampAmpEq : Nat := 119
def pipePipeEq : Nat := 120
def questionQuestionEq : Nat := 121
def lineComment : Nat := 122
def blockComment : Nat := 123
def newline : Nat := 124
def eof : Nat := 125
def invalid : Nat := 126

end TK

/-- A token with position info (`Token` of `lexer.rs`; `stop` models the
`end` field). -/
structure Token where
  kind : Nat
  tstart : Nat
  tstop : Nat
deriving Repr, DecidableEq

/-- Whitespace skipped silently by the lexer: space, tab, carriage return. -/
def skipWsF (src : List Nat) : Nat → Nat → Nat
  | 0, p => p
  | f + 1, p =>
    match src.get? p with
    | some b => if b = 32 ∨ b = 9 ∨ b = 13 then skipWsF src f (p + 1) else p
    | none => p

def skipWs (src : List Nat) (p : Nat) : Nat := skipWsF src (src.length + 1) p

/-- Test of `peek().map(|b| b.is_ascii_digit()).unwrap_or(false)`. -/
def digitOpt (o : Option Nat) : Bool :=
  (o.map (fun b => decide (48 ≤ b ∧ b ≤ 57))).getD false

/-- Identifier continuation bytes: ASCII letters, digits, `_`, `$`. -/
def isIdentChar (b : Nat) : Bool :=
  (97 ≤ b ∧ b ≤ 122) ∨ (65 ≤ b ∧ b ≤ 90) ∨ (48 ≤ b ∧ b ≤ 57) ∨ b = 95 ∨ b = 36

/-- Identifier start bytes (the lexer dispatch: letters, `_`, `$`). -/
def isIdentStart (b : Nat) : Bool :=
  (97 ≤ b ∧ b ≤ 122) ∨ (65 ≤ b ∧ b ≤ 90) ∨ b = 95 ∨ b = 36

/-- Maximal identifier run: `while current is ident char { pos += 1 }`. -/
def identRunF (src : List Nat) : Nat → Nat → Nat
  | 0, p => p
  | f + 1, p =>
    match src.get? p with
    | some b => if isIdentChar b then identRunF src f (p + 1) else p
    | none => p

def identRun (src : List Nat) (p : Nat) : Nat := identRunF src (src.length + 1) p

/-- The fixed keyword table of `scan_identifier`, in source order; the
byte-string match cascade is modelled as first-match lookup (the strings
are pairwise distinct, so the semantics agree). -/
def keywordTable : List (List Nat × Nat) := [
([97, 119, 97, 105, 116], TK.kwAwait),  -- await
  ([98, 114, 101, 97, 107], TK.kwBreak),  -- break
  ([99, 97, 115, 101], TK.kwCase),  -- case
  ([99, 97, 116, 99, 104], TK.kwCatch),  -- catch
  ([99, 108, 97, 115, 115], TK.kwClass),  -- class
  ([99, 111, 110, 115, 116], TK.kwConst),  -- const
  ([99, 111, 110, 116, 105, 110, 117, 101], TK.kwContinue),  -- continue
  ([100, 101, 98, 117, 103, 103, 101, 114], TK.kwDebugger),  -- debugger
  ([100, 101, 102, 97, 117, 108, 116], TK.kwDefault),  -- default
  ([100, 101, 108, 101, 116, 101], TK.kwDelete),  -- delete
  ([100, 111], TK.kwDo),  -- do
  ([101, 108, 115, 101], TK.kwElse),  -- else
  ([101, 110, 117, 109], TK.kwEnum),  -- enum
  ([101, 120, 112, 111, 114, 116], TK.kwExport),  -- export
  ([101, 120, 116, 101, 110, 100, 115], TK.kwExtends),  -- extends
  ([102, 97, 108, 115, 101], TK.kwFalse),  -- false
  ([102, 105, 110, 97, 108, 108, 121], TK.kwFinally),  -- finally
  ([102, 111, 114], TK.kwFor),  -- for
  ([102, 117, 110, 99, 116, 105, 111, 110], TK.kwFunction),  -- function
  ([105, 102], TK.kwIf),  -- if
  ([105, 109, 112, 111, 114, 116], TK.kwImport),  -- import
  ([105, 110], TK.kwIn),  -- in
  ([105, 110, 115, 116, 97, 110, 99, 101, 111, 102], TK.kwInstanceof),  -- instanceof
  ([108, 101, 116], TK.kwLet),  -- let
  ([110, 101, 119], TK.kwNew),  -- new
  ([110, 117, 108, 108], TK.kwNull),  -- null
  ([114, 101, 116, 117, 114, 110], TK.kwReturn),  -- return
  ([115, 117, 112, 101, 114], TK.kwSuper),  -- super
  ([115, 119, 105, 116, 99, 104], TK.kwSwitch),  -- switch
  ([116, 104, 105, 115], TK.kwThis),  -- this
  ([116, 104, 114, 111, 119], TK.kwThrow),  -- throw
  ([116, 114, 117, 101], TK.kwTrue),  -- true
  ([116, 114, 121], TK.kwTry),  -- try
  ([116, 121, 112, 101, 111, 102], TK.kwTypeof),  -- typeof
  ([118, 97, 114], TK.kwVar),  -- var
  ([118, 111, 105, 100], TK.kwVoid),  -- void
  ([119, 104, 105, 108, 101], TK.kwWhile),  -- while
  ([119, 105, 116, 104], TK.kwWith),  -- with
  ([121, 105, 101, 108, 100], TK.kwYield),  -- yield
  ([97, 115], TK.kwAs),  -- as
  ([97, 115, 121, 110, 99], TK.kwAsync),  -- async
  ([102, 114, 111, 109], TK.kwFrom),  -- from
  ([103, 101, 116], TK.kwGet),  -- get
  ([111, 102], TK.kwOf),  -- of
  ([115, 101, 116], TK.kwSet),  -- set
  ([115, 116, 97, 116, 105, 99], TK.kwStatic),  -- static
  ([116, 121, 112, 101], TK.kwType),  -- type
  ([105, 110, 116, 101, 114, 102, 97, 99, 101], TK.kwInterface),  -- interface
  ([105, 109, 112, 108, 101, 109, 101, 110, 116, 115], TK.kwImplements),  -- implements
  ([112, 114, 105, 118, 97, 116, 101], TK.kwPrivate),  -- private
  ([112, 114, 111, 116, 101, 99, 116, 101, 100], TK.kwProtected),  -- protected
  ([112, 117, 98, 108, 105, 99], TK.kwPublic),  -- public
  ([114, 101, 97, 100, 111, 110, 108, 121], TK.kwReadonly),  -- readonly
  ([100, 101, 99, 108, 97, 114, 101], TK.kwDeclare),  -- declare
  ([97, 98, 115, 116, 114, 97, 99, 116], TK.kwAbstract),  -- abstract
  ([110, 97, 109, 101, 115, 112, 97, 99, 101], TK.kwNamespace),  -- namespace
  ([109, 111, 100, 117, 108, 101], TK.kwModule),  -- module
]

/-- Keyword lookup: exact match against the table, identifiers otherwise. -/
def lookupKw (s : List Nat) : Nat :=
  match keywordTable.find? (fun e => e.1 == s) with
  | some e => e.2
  | none => TK.identifier

/-- `scan_identifier`: maximal run, then exact keyword match. -/
def scanIdentifier (src : List Nat) (p : Nat) : Nat × Nat :=
  let e := identRun src p
  (lookupKw (slice src p e), e)

/-- Digit-or-underscore runs of `scan_number` (decimal). -/
def decRunF (src : List Nat) : Nat → Nat → Nat
  | 0, p => p
  | f + 1, p =>
    match src.get? p with
    | some b => if (48 ≤ b ∧ b ≤ 57) ∨ b = 95 then decRunF src f (p + 1) else p
    | none => p

def decRun (src : List Nat) (p : Nat) : Nat := decRunF src (src.length + 1) p

/-- Hex digits or underscore. -/
def hexRunF (src : List Nat) : Nat → Nat → Nat
  | 0, p => p
  | f + 1, p =>
    match src.get? p with
    | some b =>
      if (48 ≤ b ∧ b ≤ 57) ∨ (97 ≤ b ∧ b ≤ 102) ∨ (65 ≤ b ∧ b ≤ 70) ∨ b = 95 then
        hexRunF src f (p + 1)
      else p
    | none => p

def hexRun (src : List Nat) (p : Nat) : Nat := hexRunF src (src.length + 1) p

/-- Octal digits or underscore. -/
def octRunF (src : List Nat) : Nat → Nat → Nat
  | 0, p => p
  | f + 1, p =>
    match src.get? p with
    | some b => if (48 ≤ b ∧ b ≤ 55) ∨ b = 95 then octRunF src f (p + 1) else p
    | none => p

def octRun (src : List Nat) (p : Nat) : Nat := octRunF src (src.length + 1) p

/-- Binary digits or underscore. -/
def binRunF (src : List Nat) : Nat → Nat → Nat
  | 0, p => p
  | f + 1, p =>
    match src.get? p with
    | some b => if b = 48 ∨ b = 49 ∨ b = 95 then binRunF src f (p + 1) else p
    | none => p

def binRun (src : List Nat) (p : Nat) : Nat := binRunF src (src.length + 1) p

/-- `check_bigint`: a trailing `n` turns the literal into a BigInt. -/
def checkBigint (src : List Nat) (p : Nat) : Nat × Nat :=
  if src.get? p = some 110 then (TK.bigInt, p + 1) else (TK.number, p)

/-- Decimal part of `scan_number`: integer run, optional fraction
(dot followed by a digit), optional exponent with optional sign. -/
def scanDecimal (src : List Nat) (p : Nat) : Nat × Nat :=
  let e1 := decRun src p
  let e2 :=
    if src.get? e1 = some 46 ∧ digitOpt (src.get? (e1 + 1)) = true then
      decRun src (e1 + 1)
    else e1
  let e3 :=
    if src.get? e2 = some 101 ∨ src.get? e2 = some 69 then
      let e2a := e2 + 1
      let e2b := if src.get? e2a = some 43 ∨ src.get? e2a = some 45 then e2a + 1 else e2a
      decRun src e2b
    else e2
  checkBigint src e3

/-- `scan_number` with the `0x`/`0o`/`0b` radix prefixes. -/
def scanNumber (src : List Nat) (p : Nat) : Nat × Nat :=
  if src.get? p = some 48 then
    let b1 := src.get? (p + 1)
    if b1 = some 120 ∨ b1 = some 88 then checkBigint src (hexRun src (p + 2))
    else if b1 = some 111 ∨ b1 = some 79 then checkBigint src (octRun src (p + 2))
    else if b1 = some 98 ∨ b1 = some 66 then checkBigint src (binRun src (p + 2))
    else scanDecimal src p
  else scanDecimal src p

/-- String body of `scan_string`: backslash skips two bytes, a newline
stops (unterminated), the closing quote is consumed; every exit yields a
String token. -/
def strLoopF (src : List Nat) (quote : Nat) : Nat → Nat → Nat
  | 0, p => p
  | f + 1, p =>
    match src.get? p with
    | none => p
    | some b =>
      if b = 92 then strLoopF src quote f (p + 2)
      else if b = 10 then p
      else if b = quote then p + 1
      else strLoopF src quote f (p + 1)

def scanString (src : List Nat) (quote p : Nat) : Nat × Nat :=
  (TK.string, strLoopF src quote (src.length + 1) (p + 1))

/-- Template body of `scan_template`: backslash skips two, `${` skips two
without tracking nesting, the closing backtick is consumed. -/
def tplLoopF (src : List Nat) : Nat → Nat → Nat
  | 0, p => p
  | f + 1, p =>
    match src.get? p with
    | none => p
    | some b =>
      if b = 92 then tplLoopF src f (p + 2)
      else if b = 96 then p + 1
      else if b = 36 ∧ src.get? (p + 1) = some 123 then tplLoopF src f (p + 2)
      else tplLoopF src f (p + 1)

def scanTemplate (src : List Nat) (p : Nat) : Nat × Nat :=
  (TK.template, tplLoopF src (src.length + 1) (p + 1))

def scanDot (src : List Nat) (p : Nat) : Nat × Nat :=
  if src.get? (p + 1) = some 46 ∧ src.get? (p + 2) = some 46 then (TK.dotDotDot, p + 3)
  else (TK.dot, p + 1)

/-- `scan_question`: `?.` is suppressed when a digit follows the dot. -/
def scanQuestion (src : List Nat) (p : Nat) : Nat × Nat :=
  if src.get? (p + 1) = some 46 then
    if digitOpt (src.get? (p + 2)) = true then (TK.question, p + 1)
    else (TK.questionDot, p + 2)
  else if src.get? (p + 1) = some 63 then
    if src.get? (p + 2) = some 61 then (TK.questionQuestionEq, p + 3)
    else (TK.questionQuestion, p + 2)
  else (TK.question, p + 1)

def scanPlus (src : List Nat) (p : Nat) : Nat × Nat :=
  if src.get? (p + 1) = some 43 then (TK.plusPlus, p + 2)
  else if src.get? (p + 1) = some 61 then (TK.plusEq, p + 2)
  else (TK.plus, p + 1)

def scanMinus (src : List Nat) (p : Nat) : Nat × Nat :=
  if src.get? (p + 1) = some 45 then (TK.minusMinus, p + 2)
  else if src.get? (p + 1) = some 61 then (TK.minusEq, p + 2)
  else (TK.minus, p + 1)

def scanStar (src : List Nat) (p : Nat) : Nat × Nat :=
  if src.get? (p + 1) = some 42 then
    if src.get? (p + 2) = some 61 then (TK.starStarEq, p + 3) else (TK.starStar, p + 2)
  else if src.get? (p + 1) = some 61 then (TK.starEq, p + 2)
  else (TK.star, p + 1)

/-- Block-comment loop: `while pos + 1 < len`, closed by a literal `*\/`. -/
def bcLoopF (src : List Nat) : Nat → Nat → Nat
  | 0, _ => src.length
  | f + 1, p =>
    if p + 1 < src.length then
      if src.get? p = some 42 ∧ src.get? (p + 1) = some 47 then p + 2
      else bcLoopF src f (p + 1)
    else src.length

def scanSlash (src : List Nat) (p : Nat) : Nat × Nat :=
  if src.get? (p + 1) = some 47 then
    let p2 := p + 2
    (TK.lineComment,
      match findFrom 10 (src.drop p2) with
      | some i => p2 + i
      | none => src.length)
  else if src.get? (p + 1) = some 42 then
    (TK.blockComment, bcLoopF src (src.length + 1) (p + 2))
  else if src.get? (p + 1) = some 61 then (TK.slashEq, p + 2)
  else (TK.slash, p + 1)

def scanPercent (src : List Nat) (p : Nat) : Nat × Nat :=
  if src.get? (p + 1) = some 61 then (TK.percentEq, p + 2) else (TK.percent, p + 1)

def scanLt (src : List Nat) (p : Nat) : Nat × Nat :=
  if src.get? (p + 1) = some 60 then
    if src.get? (p + 2) = some 61 then (TK.ltLtEq, p + 3) else (TK.ltLt, p + 2)
  else if src.get? (p + 1) = some 61 then (TK.ltEq, p + 2)
  else (TK.lt, p + 1)

def scanGt (src : List Nat) (p : Nat) : Nat × Nat :=
  if src.get? (p + 1) = some 62 then
    if src.get? (p + 2) = some 62 then
      if src.get? (p + 3) = some 61 then (TK.gtGtGtEq, p + 4) else (TK.gtGtGt, p + 3)
    else if src.get? (p + 2) = some 61 then (TK.gtGtEq, p + 3)
    else (TK.gtGt, p + 2)
  else if src.get? (p + 1) = some 61 then (TK.gtEq, p + 2)
  else (TK.gt, p + 1)

def scanEq (src : List Nat) (p : Nat) : Nat × Nat :=
  if src.get? (p + 1) = some 61 then
    if src.get? (p + 2) = some 61 then (TK.eqEqEq, p + 3) else (TK.eqEq, p + 2)
  else if src.get? (p + 1) = some 62 then (TK.arrow, p + 2)
  else (TK.eq, p + 1)

def scanBang (src : List Nat) (p : Nat) : Nat × Nat :=
  if src.get? (p + 1) = some 61 then
    if src.get? (p + 2) = some 61 then (TK.bangEqEq, p + 3) else (TK.bangEq, p + 2)
  else (TK.bang, p + 1)

def scanAmp (src : List Nat) (p : Nat) : Nat × Nat :=
  if src.get? (p + 1) = some 38 then
    if src.get? (p + 2) = some 61 then (TK.ampAmpEq, p + 3) else (TK.ampAmp, p + 2)
  else if src.get? (p + 1) = some 61 then (TK.ampEq, p + 2)
  else (TK.amp, p + 1)

def scanPipe (src : List Nat) (p : Nat) : Nat × Nat :=
  if src.get? (p + 1) = some 124 then
    if src.get? (p + 2) = some 61 then (TK.pipePipeEq, p + 3) else (TK.pipePipe, p + 2)
  else if src.get? (p + 1) = some 61 then (TK.pipeEq, p + 2)
  else (TK.pipe, p + 1)

def scanCaret (src : List Nat) (p : Nat) : Nat × Nat :=
  if src.get? (p + 1) = some 61 then (TK.caretEq, p + 2) else (TK.caret, p + 1)

/-- `Lexer::next_token`: skip whitespace, then dispatch on the first byte;
returns the token and the new cursor. -/
def nextToken (src : List Nat) (pos : Nat) : Token × Nat :=
  let q := skipWs src pos
  match src.get? q with
  | none => (⟨TK.eof, q, q⟩, q)
  | some b =>
    let kp : Nat × Nat :=
      if b = 10 then (TK.newline, q + 1)
      else if isIdentStart b then scanIdentifier src q
      else if 48 ≤ b ∧ b ≤ 57 then scanNumber src q
      else if b = 34 ∨ b = 39 then scanString src b q
      else if b = 96 then scanTemplate src q
      else if b = 123 then (TK.lbrace, q + 1)
      else if b = 125 then (TK.rbrace, q + 1)
      else if b = 40 then (TK.lparen, q + 1)
      else if b = 41 then (TK.rparen, q + 1)
      else if b = 91 then (TK.lbracket, q + 1)
      else if b = 93 then (TK.rbracket, q + 1)
      else if b = 59 then (TK.semicolon, q + 1)
      else if b = 44 then (TK.comma, q + 1)
      else if b = 58 then (TK.colon, q + 1)
      else if b = 126 then (TK.tilde, q + 1)
      else if b = 64 then (TK.atSign, q + 1)
      else if b = 46 then scanDot src q
      else if b = 63 then scanQuestion src q
      else if b = 43 then scanPlus src q
      else if b = 45 then scanMinus src q
      else if b = 42 then scanStar src q
      else if b = 47 then scanSlash src q
      else if b = 37 then scanPercent src q
      else if b = 60 then scanLt src q
      else if b = 62 then scanGt src q
      else if b = 61 then scanEq src q
      else if b = 33 then scanBang src q
      else if b = 38 then scanAmp src q
      else if b = 94 then scanCaret src q
      else if b = 124 then scanPipe src q
      else (TK.invalid, q + 1)
    (⟨kp.1, q, kp.2⟩, kp.2)

/-- `Lexer::tokenize`: collect tokens until (and including) the first
end-of-input token, fueled. -/
def tokenizeF (src : List Nat) : Nat → Nat → List Token → Option (List Token)
  | 0, _, _ => none
  | f + 1, p, acc =>
    let r := nextToken src p
    if r.1.kind = TK.eof then some (acc ++ [r.1])
    else tokenizeF src f r.2 (acc ++ [r.1])

/-- `tokenize(source)` of `wasm-js/src/lib.rs` returns the token count. -/
def jsTokenizeF (src : List Nat) (fuel : Nat) : Option (List Token) :=
  tokenizeF src fuel 0 []

end JS

/-! ## JS/TS front end, parser: `crates/wasm-js/src/parser.rs`

Node kinds are the `#[repr(u8)]` discriminants of `NodeKind`, in
declaration order starting at 1.  The parser state carries the lexer
cursor, the two buffered tokens and the flat node array (in push order).
Every parsing function is fuel-indexed (one unit per call) and returns
`none` only on fuel exhaustion; sufficiency of a fuel linear in the input
length is proved below. -/

namespace NK

def program : Nat := 1
def variableDeclaration : Nat := 2
def variableDeclarator : Nat := 3
def functionDeclaration : Nat := 4
def classDeclaration : Nat := 5
def importDeclaration : Nat := 6
def exportDeclaration : Nat := 7
def blockStatement : Nat := 8
def expressionStatement : Nat := 9
def ifStatement : Nat := 10
def forStatement : Nat := 11
def forInStatement : Nat := 12
def forOfStatement : Nat := 13
def whileStatement : Nat := 14
def doWhileStatement : Nat := 15
def switchStatement : Nat := 16
def switchCase : Nat := 17
def returnStatement : Nat := 18
def throwStatement : Nat := 19
def tryStatement : Nat := 20
def catchClause : Nat := 21
def breakStatement : Nat := 22
def continueStatement : Nat := 23
def emptyStatement : Nat := 24
def identifier : Nat := 25
def literal : Nat := 26
def arrayExpression : Nat := 27
def objectExpression : Nat := 28
def property : Nat := 29
def functionExpression : Nat := 30
def arrowFunctionExpression : Nat := 31
def classExpression : Nat := 32
def callExpression : Nat := 33
def newExpression : Nat := 34
def memberExpression : Nat := 35
def binaryExpression : Nat := 36
def unaryExpression : Nat := 37
def updateExpression : Nat := 38
def assignmentExpression : Nat := 39
def logicalExpression : Nat := 40
def conditionalExpression : Nat := 41
def sequenceExpression : Nat := 42
def spreadElement : Nat := 43
def templateLiteral : Nat := 44
def taggedTemplateExpression : Nat := 45
def thisExpression : Nat := 46
def superNode : Nat := 47
def awaitExpression : Nat := 48
def yieldExpression : Nat := 49
def arrayPattern : Nat := 50
def objectPattern : Nat := 51
def assignmentPattern : Nat := 52
def restElement : Nat := 53
def importSpecifier : Nat := 54
def importDefaultSpecifier : Nat := 55
def importNamespaceSpecifier : Nat := 56
def exportSpecifier : Nat := 57
def methodDefinition : Nat := 58
def propertyDefinition : Nat := 59
def comment : Nat := 60

end NK

namespace JS

/-- The compact 16-byte AST node of `parser.rs` (`kind`, `flags`, `start`,
`end`, `extra`; `nstop` models the `end` field). -/
structure PNode where
  kind : Nat
  flags : Nat
  nstart : Nat
  nstop : Nat
  extra : Nat
deriving Repr, DecidableEq

/-- Parser state: lexer cursor, the `current` and `peek` tokens, and the
flat node array in push order. -/
structure PState where
  pos : Nat
  cur : Token
  peek : Token
  nodes : List PNode
deriving Repr, DecidableEq

/-- `Parser::advance`: shift the lookahead and pull one more token. -/
def advanceP (src : List Nat) (s : PState) : PState :=
  let r := nextToken src s.pos
  { pos := r.2, cur := s.peek, peek := r.1, nodes := s.nodes }

/-- Append one node to the flat array. -/
def pushN (s : PState) (n : PNode) : PState := { s with nodes := s.nodes ++ [n] }

/-- `Parser::eat`: consume the token if its kind matches. -/
def eatK (src : List Nat) (k : Nat) (s : PState) : Bool × PState :=
  if s.cur.kind = k then (true, advanceP src s) else (false, s)

/-- `Parser::expect`: advisory only — a mismatch is silently skipped. -/
def expectK (src : List Nat) (k : Nat) (s : PState) : PState := (eatK src k s).2

/-- `Parser::new`: prime `current` and `peek`. -/
def initP (src : List Nat) : PState :=
  let r1 := nextToken src 0
  let r2 := nextToken src r1.2
  ⟨r2.2, r1.1, r2.1, []⟩

/-- `parse_empty_statement` (non-recursive). -/
def parseEmptyStatement (src : List Nat) (s : PState) : PState :=
  let start := s.cur.tstart
  pushN (advanceP src s) ⟨NK.emptyStatement, 0, start, start + 1, 0⟩

/-- `parse_identifier` (non-recursive). -/
def parseIdentifier (src : List Nat) (s : PState) : PState :=
  let start := s.cur.tstart
  let s := advanceP src s
  pushN s ⟨NK.identifier, 0, start, s.cur.tstart, 0⟩

/-- `parse_template_literal` (non-recursive). -/
def parseTemplateLit (src : List Nat) (s : PState) : PState :=
  let start := s.cur.tstart
  let s := advanceP src s
  pushN s ⟨NK.templateLiteral, 0, start, s.cur.tstart, 0⟩

/-- Assignment-operator set of `parse_assignment_expression`. -/
def isAssignOp (k : Nat) : Bool :=
  k = TK.eq ∨ k = TK.plusEq ∨ k = TK.minusEq ∨ k = TK.starEq ∨ k = TK.slashEq ∨
  k = TK.percentEq ∨ k = TK.starStarEq ∨ k = TK.ltLtEq ∨ k = TK.gtGtEq ∨
  k = TK.gtGtGtEq ∨ k = TK.ampEq ∨ k = TK.pipeEq ∨ k = TK.caretEq ∨
  k = TK.ampAmpEq ∨ k = TK.pipePipeEq ∨ k = TK.questionQuestionEq

set_option maxHeartbeats 3200000 in
mutual

/-- `skip_comments_and_newlines`. -/
def skipCN (src : List Nat) : Nat → PState → Option PState
  | 0, _ => none
  | f + 1, s =>
    if s.cur.kind = TK.newline ∨ s.cur.kind = TK.lineComment ∨
        s.cur.kind = TK.blockComment then
      skipCN src f (advanceP src s)
    else some s

/-- `parse_statement_or_declaration` dispatch. -/
def parseStatementOrDecl (src : List Nat) : Nat → PState → Option PState
  | 0, _ => none
  | f + 1, s =>
    let k := s.cur.kind
    if k = TK.kwConst ∨ k = TK.kwLet ∨ k = TK.kwVar then parseVariableDeclaration src f s
    else if k = TK.kwFunction then parseFunctionDeclaration src f s
    else if k = TK.kwClass then parseClassDeclaration src f s
    else if k = TK.kwImport then parseImportDeclaration src f s
    else if k = TK.kwExport then parseExportDeclaration src f s
    else if k = TK.kwAsync ∧ s.peek.kind = TK.kwFunction then parseFunctionDeclaration src f s
    else if k = TK.lbrace then parseBlockStatement src f s
    else if k = TK.kwIf then parseIfStatement src f s
    else if k = TK.kwFor then parseForStatement src f s
    else if k = TK.kwWhile then parseWhileStatement src f s
    else if k = TK.kwDo then parseDoWhileStatement src f s
    else if k = TK.kwSwitch then parseSwitchStatement src f s
    else if k = TK.kwReturn then parseReturnStatement src f s
    else if k = TK.kwThrow then parseThrowStatement src f s
    else if k = TK.kwTry then parseTryStatement src f s
    else if k = TK.kwBreak then parseBreakStatement src f s
    else if k = TK.kwContinue then parseContinueStatement src f s
    else if k = TK.semicolon then some (parseEmptyStatement src s)
    else parseExpressionStatement src f s

/-- `parse_variable_declaration`. -/
def parseVariableDeclaration (src : List Nat) : Nat → PState → Option PState
  | 0, _ => none
  | f + 1, s => do
    let start := s.cur.tstart
    let flags : Nat :=
      if s.cur.kind = TK.kwConst then 1 else if s.cur.kind = TK.kwLet then 2 else 0
    let s := advanceP src s
    let s ← skipCN src f s
    let r ← declLoop src f s 0
    let s := (eatK src TK.semicolon r.2).2
    pure (pushN s ⟨NK.variableDeclaration, flags, start, s.cur.tstart, r.1⟩)

/-- Declarator list loop of `parse_variable_declaration`. -/
def declLoop (src : List Nat) : Nat → PState → Nat → Option (Nat × PState)
  | 0, _, _ => none
  | f + 1, s, count => do
    let s ← parseVariableDeclarator src f s
    let count := count + 1
    let s ← skipCN src f s
    let r := eatK src TK.comma s
    if r.1 then do
      let s ← skipCN src f r.2
      declLoop src f s count
    else pure (count, r.2)

/-- `parse_variable_declarator`. -/
def parseVariableDeclarator (src : List Nat) : Nat → PState → Option PState
  | 0, _ => none
  | f + 1, s => do
    let start := s.cur.tstart
    let s ← parseBindingPattern src f s
    let s ← skipCN src f s
    let r := eatK src TK.eq s
    let s ←
      if r.1 then do
        let s ← skipCN src f r.2
        parseExpression src f s
      else pure r.2
    pure (pushN s ⟨NK.variableDeclarator, 0, start, s.cur.tstart, 0⟩)

/-- `parse_binding_pattern`. -/
def parseBindingPattern (src : List Nat) : Nat → PState → Option PState
  | 0, _ => none
  | f + 1, s =>
    if s.cur.kind = TK.lbracket then parseArrayPattern src f s
    else if s.cur.kind = TK.lbrace then parseObjectPattern src f s
    else some (parseIdentifier src s)

/-- `parse_array_pattern`. -/
def parseArrayPattern (src : List Nat) : Nat → PState → Option PState
  | 0, _ => none
  | f + 1, s => do
    let start := s.cur.tstart
    let s := advanceP src s
    let s ← skipCN src f s
    let r ← arrayPatLoop src f s 0
    let s := expectK src TK.rbracket r.2
    pure (pushN s ⟨NK.arrayPattern, 0, start, s.cur.tstart, r.1⟩)

/-- Element loop of `parse_array_pattern` (holes, rest, patterns). -/
def arrayPatLoop (src : List Nat) : Nat → PState → Nat → Option (Nat × PState)
  | 0, _, _ => none
  | f + 1, s, count =>
    if s.cur.kind ≠ TK.rbracket ∧ s.cur.kind ≠ TK.eof then
      if s.cur.kind = TK.comma then do
        let s := advanceP src s
        let s ← skipCN src f s
        arrayPatLoop src f s count
      else if s.cur.kind = TK.dotDotDot then do
        let s ← parseRestElement src f s
        pure (count + 1, s)
      else do
        let s ← parseBindingPattern src f s
        let count := count + 1
        let s ← skipCN src f s
        let r := eatK src TK.comma s
        if r.1 then do
          let s ← skipCN src f r.2
          arrayPatLoop src f s count
        else pure (count, r.2)
    else pure (count, s)

/-- `parse_object_pattern`. -/
def parseObjectPattern (src : List Nat) : Nat → PState → Option PState
  | 0, _ => none
  | f + 1, s => do
    let start := s.cur.tstart
    let s := advanceP src s
    let s ← skipCN src f s
    let r ← objPatLoop src f s 0
    let s := expectK src TK.rbrace r.2
    pure (pushN s ⟨NK.objectPattern, 0, start, s.cur.tstart, r.1⟩)

/-- Property loop of `parse_object_pattern`. -/
def objPatLoop (src : List Nat) : Nat → PState → Nat → Option (Nat × PState)
  | 0, _, _ => none
  | f + 1, s, count =>
    if s.cur.kind ≠ TK.rbrace ∧ s.cur.kind ≠ TK.eof then
      if s.cur.kind = TK.dotDotDot then do
        let s ← parseRestElement src f s
        pure (count + 1, s)
      else do
        let s ← parsePropertyPattern src f s
        let count := count + 1
        let s ← skipCN src f s
        let r := eatK src TK.comma s
        if r.1 then do
          let s ← skipCN src f r.2
          objPatLoop src f s count
        else pure (count, r.2)
    else pure (count, s)

/-- `parse_property_pattern`. -/
def parsePropertyPattern (src : List Nat) : Nat → PState → Option PState
  | 0, _ => none
  | f + 1, s => do
    let start := s.cur.tstart
    let s := parseIdentifier src s
    let s ← skipCN src f s
    let r := eatK src TK.colon s
    let s ←
      if r.1 then do
        let s ← skipCN src f r.2
        parseBindingPattern src f s
      else pure r.2
    let r2 := eatK src TK.eq s
    let s ←
      if r2.1 then do
        let s ← skipCN src f r2.2
        parseExpression src f s
      else pure r2.2
    pure (pushN s ⟨NK.property, 0, start, s.cur.tstart, 0⟩)

/-- `parse_rest_element`. -/
def parseRestElement (src : List Nat) : Nat → PState → Option PState
  | 0, _ => none
  | f + 1, s => do
    let start := s.cur.tstart
    let s := advanceP src s
    let s ← parseBindingPattern src f s
    pure (pushN s ⟨NK.restElement, 0, start, s.cur.tstart, 0⟩)

/-- `parse_function_declaration`. -/
def parseFunctionDeclaration (src : List Nat) : Nat → PState → Option PState
  | 0, _ => none
  | f + 1, s => do
    let start := s.cur.tstart
    let r := eatK src TK.kwAsync s
    let fl1 : Nat := if r.1 then 4 else 0
    let s ← if r.1 then skipCN src f r.2 else pure r.2
    let s := expectK src TK.kwFunction s
    let s ← skipCN src f s
    let r2 := eatK src TK.star s
    let fl2 := Nat.lor fl1 (if r2.1 then 8 else 0)
    let s ← if r2.1 then skipCN src f r2.2 else pure r2.2
    let s := if s.cur.kind = TK.identifier then parseIdentifier src s else s
    let s ← skipCN src f s
    let s ← parseFunctionParams src f s
    let s ← skipCN src f s
    let s ← parseBlockStatement src f s
    pure (pushN s ⟨NK.functionDeclaration, fl2, start, s.cur.tstart, 0⟩)

/-- `parse_function_params`. -/
def parseFunctionParams (src : List Nat) : Nat → PState → Option PState
  | 0, _ => none
  | f + 1, s => do
    let s := expectK src TK.lparen s
    let s ← skipCN src f s
    let s ← paramsLoop src f s
    pure (expectK src TK.rparen s)

/-- Parameter loop of `parse_function_params`. -/
def paramsLoop (src : List Nat) : Nat → PState → Option PState
  | 0, _ => none
  | f + 1, s =>
    if s.cur.kind ≠ TK.rparen ∧ s.cur.kind ≠ TK.eof then
      if s.cur.kind = TK.dotDotDot then parseRestElement src f s
      else do
        let s ← parseBindingPattern src f s
        let s ← skipCN src f s
        let r := eatK src TK.eq s
        let s ←
          if r.1 then do
            let s ← skipCN src f r.2
            parseExpression src f s
          else pure r.2
        let s ← skipCN src f s
        let r2 := eatK src TK.comma s
        if r2.1 then do
          let s ← skipCN src f r2.2
          paramsLoop src f s
        else pure r2.2
    else pure s

/-- `parse_class_declaration`. -/
def parseClassDeclaration (src : List Nat) : Nat → PState → Option PState
  | 0, _ => none
  | f + 1, s => do
    let start := s.cur.tstart
    let s := advanceP src s
    let s ← skipCN src f s
    let s := if s.cur.kind = TK.identifier then parseIdentifier src s else s
    let s ← skipCN src f s
    let r := eatK src TK.kwExtends s
    let s ←
      if r.1 then do
        let s ← skipCN src f r.2
        parseExpression src f s
      else pure r.2
    let s ← skipCN src f s
    let s ← parseClassBody src f s
    pure (pushN s ⟨NK.classDeclaration, 0, start, s.cur.tstart, 0⟩)

/-- `parse_class_body`. -/
def parseClassBody (src : List Nat) : Nat → PState → Option PState
  | 0, _ => none
  | f + 1, s => do
    let s := expectK src TK.lbrace s
    let s ← skipCN src f s
    let s ← classBodyLoop src f s
    pure (expectK src TK.rbrace s)

/-- Member loop of `parse_class_body`. -/
def classBodyLoop (src : List Nat) : Nat → PState → Option PState
  | 0, _ => none
  | f + 1, s =>
    if s.cur.kind ≠ TK.rbrace ∧ s.cur.kind ≠ TK.eof then do
      let s ← parseClassMember src f s
      let s ← skipCN src f s
      classBodyLoop src f s
    else pure s

/-- `parse_class_member`. -/
def parseClassMember (src : List Nat) : Nat → PState → Option PState
  | 0, _ => none
  | f + 1, s => do
    let start := s.cur.tstart
    let r1 := eatK src TK.kwStatic s
    let fl1 : Nat := if r1.1 then 64 else 0
    let s ← if r1.1 then skipCN src f r1.2 else pure r1.2
    let r2 := eatK src TK.kwAsync s
    let fl2 := Nat.lor fl1 (if r2.1 then 4 else 0)
    let s ← if r2.1 then skipCN src f r2.2 else pure r2.2
    let r3 := eatK src TK.star s
    let fl3 := Nat.lor fl2 (if r3.1 then 8 else 0)
    let s ← if r3.1 then skipCN src f r3.2 else pure r3.2
    let s ←
      if s.cur.kind = TK.kwGet ∨ s.cur.kind = TK.kwSet then do
        let s := advanceP src s
        skipCN src f s
      else pure s
    let r4 := eatK src TK.lbracket s
    let fl4 := Nat.lor fl3 (if r4.1 then 16 else 0)
    let s ←
      if r4.1 then do
        let s ← parseExpression src f r4.2
        pure (expectK src TK.rbracket s)
      else pure (parseIdentifier src r4.2)
    let s ← skipCN src f s
    if s.cur.kind = TK.lparen then do
      let s ← parseFunctionParams src f s
      let s ← skipCN src f s
      let s ← parseBlockStatement src f s
      pure (pushN s ⟨NK.methodDefinition, fl4, start, s.cur.tstart, 0⟩)
    else do
      let r5 := eatK src TK.eq s
      let s ←
        if r5.1 then do
          let s ← skipCN src f r5.2
          parseExpression src f s
        else pure r5.2
      let s := (eatK src TK.semicolon s).2
      pure (pushN s ⟨NK.propertyDefinition, fl4, start, s.cur.tstart, 0⟩)

/-- `parse_import_declaration`. -/
def parseImportDeclaration (src : List Nat) : Nat → PState → Option PState
  | 0, _ => none
  | f + 1, s => do
    let start := s.cur.tstart
    let s := advanceP src s
    let s ← skipCN src f s
    if s.cur.kind = TK.string then
      let s := advanceP src s
      let s := (eatK src TK.semicolon s).2
      pure (pushN s ⟨NK.importDeclaration, 0, start, s.cur.tstart, 0⟩)
    else do
      let s ←
        if s.cur.kind = TK.identifier then do
          let specStart := s.cur.tstart
          let s := parseIdentifier src s
          let s := pushN s ⟨NK.importDefaultSpecifier, 0, specStart, s.cur.tstart, 0⟩
          let s ← skipCN src f s
          let r := eatK src TK.comma s
          if r.1 then skipCN src f r.2 else pure r.2
        else pure s
      let r := eatK src TK.star s
      let s ←
        if r.1 then do
          let specStart := r.2.cur.tstart
          let s ← skipCN src f r.2
          let s := expectK src TK.kwAs s
          let s ← skipCN src f s
          let s := parseIdentifier src s
          pure (pushN s ⟨NK.importNamespaceSpecifier, 0, specStart, s.cur.tstart, 0⟩)
        else if r.2.cur.kind = TK.lbrace then do
          let s := advanceP src r.2
          let s ← skipCN src f s
          let s ← importNamedLoop src f s
          pure (expectK src TK.rbrace s)
        else pure r.2
      let s ← skipCN src f s
      let s := expectK src TK.kwFrom s
      let s ← skipCN src f s
      let s := advanceP src s
      let s := (eatK src TK.semicolon s).2
      pure (pushN s ⟨NK.importDeclaration, 0, start, s.cur.tstart, 0⟩)

/-- Named-specifier loop of `parse_import_declaration`. -/
def importNamedLoop (src : List Nat) : Nat → PState → Option PState
  | 0, _ => none
  | f + 1, s =>
    if s.cur.kind ≠ TK.rbrace ∧ s.cur.kind ≠ TK.eof then do
      let specStart := s.cur.tstart
      let s := parseIdentifier src s
      let s ← skipCN src f s
      let r := eatK src TK.kwAs s
      let s ←
        if r.1 then do
          let s ← skipCN src f r.2
          pure (parseIdentifier src s)
        else pure r.2
      let s := pushN s ⟨NK.importSpecifier, 0, specStart, s.cur.tstart, 0⟩
      let s ← skipCN src f s
      let r2 := eatK src TK.comma s
      if r2.1 then do
        let s ← skipCN src f r2.2
        importNamedLoop src f s
      else pure r2.2
    else pure s

/-- `parse_export_declaration`. -/
def parseExportDeclaration (src : List Nat) : Nat → PState → Option PState
  | 0, _ => none
  | f + 1, s => do
    let start := s.cur.tstart
    let s := advanceP src s
    let s ← skipCN src f s
    let rDef := eatK src TK.kwDefault s
    let flags : Nat := if rDef.1 then 128 else 0
    let s ←
      if rDef.1 then do
        let s ← skipCN src f rDef.2
        if s.cur.kind = TK.kwFunction ∨ s.cur.kind = TK.kwAsync then
          parseFunctionDeclaration src f s
        else if s.cur.kind = TK.kwClass then parseClassDeclaration src f s
        else do
          let s ← parseExpression src f s
          pure (eatK src TK.semicolon s).2
      else if rDef.2.cur.kind = TK.lbrace then do
        let s := advanceP src rDef.2
        let s ← skipCN src f s
        let s ← exportNamedLoop src f s
        let s := expectK src TK.rbrace s
        let s ← skipCN src f s
        let r := eatK src TK.kwFrom s
        let s ←
          if r.1 then do
            let s ← skipCN src f r.2
            pure (advanceP src s)
          else pure r.2
        pure (eatK src TK.semicolon s).2
      else do
        let rStar := eatK src TK.star rDef.2
        if rStar.1 then do
          let s ← skipCN src f rStar.2
          let r := eatK src TK.kwAs s
          let s ←
            if r.1 then do
              let s ← skipCN src f r.2
              pure (parseIdentifier src s)
            else pure r.2
          let s ← skipCN src f s
          let s := expectK src TK.kwFrom s
          let s ← skipCN src f s
          let s := advanceP src s
          pure (eatK src TK.semicolon s).2
        else
          let k := rStar.2.cur.kind
          if k = TK.kwConst ∨ k = TK.kwLet ∨ k = TK.kwVar then
            parseVariableDeclaration src f rStar.2
          else if k = TK.kwFunction ∨ k = TK.kwAsync then
            parseFunctionDeclaration src f rStar.2
          else if k = TK.kwClass then parseClassDeclaration src f rStar.2
          else pure rStar.2
    pure (pushN s ⟨NK.exportDeclaration, flags, start, s.cur.tstart, 0⟩)

/-- Named-specifier loop of `parse_export_declaration`. -/
def exportNamedLoop (src : List Nat) : Nat → PState → Option PState
  | 0, _ => none
  | f + 1, s =>
    if s.cur.kind ≠ TK.rbrace ∧ s.cur.kind ≠ TK.eof then do
      let specStart := s.cur.tstart
      let s := parseIdentifier src s
      let s ← skipCN src f s
      let r := eatK src TK.kwAs s
      let s ←
        if r.1 then do
          let s ← skipCN src f r.2
          pure (parseIdentifier src s)
        else pure r.2
      let s := pushN s ⟨NK.exportSpecifier, 0, specStart, s.cur.tstart, 0⟩
      let s ← skipCN src f s
      let r2 := eatK src TK.comma s
      if r2.1 then do
        let s ← skipCN src f r2.2
        exportNamedLoop src f s
      else pure r2.2
    else pure s

/-- `parse_block_statement`. -/
def parseBlockStatement (src : List Nat) : Nat → PState → Option PState
  | 0, _ => none
  | f + 1, s => do
    let start := s.cur.tstart
    let s := expectK src TK.lbrace s
    let s ← skipCN src f s
    let r ← blockLoop src f s 0
    let s := expectK src TK.rbrace r.2
    pure (pushN s ⟨NK.blockStatement, 0, start, s.cur.tstart, r.1⟩)

/-- Statement loop of `parse_block_statement`. -/
def blockLoop (src : List Nat) : Nat → PState → Nat → Option (Nat × PState)
  | 0, _, _ => none
  | f + 1, s, count =>
    if s.cur.kind ≠ TK.rbrace ∧ s.cur.kind ≠ TK.eof then do
      let s ← parseStatementOrDecl src f s
      let s ← skipCN src f s
      blockLoop src f s (count + 1)
    else pure (count, s)

/-- `parse_if_statement`. -/
def parseIfStatement (src : List Nat) : Nat → PState → Option PState
  | 0, _ => none
  | f + 1, s => do
    let start := s.cur.tstart
    let s := advanceP src s
    let s ← skipCN src f s
    let s := expectK src TK.lparen s
    let s ← skipCN src f s
    let s ← parseExpression src f s
    let s ← skipCN src f s
    let s := expectK src TK.rparen s
    let s ← skipCN src f s
    let s ← parseStatementOrDecl src f s
    let s ← skipCN src f s
    let r := eatK src TK.kwElse s
    let s ←
      if r.1 then do
        let s ← skipCN src f r.2
        parseStatementOrDecl src f s
      else pure r.2
    pure (pushN s ⟨NK.ifStatement, if r.1 then 1 else 0, start, s.cur.tstart, 0⟩)

/-- `parse_for_statement` (plain, `for-in`, `for-of`, with `for await`). -/
def parseForStatement (src : List Nat) : Nat → PState → Option PState
  | 0, _ => none
  | f + 1, s => do
    let start := s.cur.tstart
    let s := advanceP src s
    let s ← skipCN src f s
    let rAw := eatK src TK.kwAwait s
    let s ← skipCN src f rAw.2
    let s := expectK src TK.lparen s
    let s ← skipCN src f s
    let s ←
      if s.cur.kind ≠ TK.semicolon then
        if s.cur.kind = TK.kwConst ∨ s.cur.kind = TK.kwLet ∨ s.cur.kind = TK.kwVar then
          parseVariableDeclaration src f s
        else parseExpression src f s
      else pure s
    let s ← skipCN src f s
    let rOf := eatK src TK.kwOf s
    let kr ←
      if rOf.1 then pure (NK.forOfStatement, rOf.2)
      else do
        let rIn := eatK src TK.kwIn rOf.2
        if rIn.1 then pure (NK.forInStatement, rIn.2)
        else do
          let s := (eatK src TK.semicolon rIn.2).2
          let s ← skipCN src f s
          let s ← if s.cur.kind ≠ TK.semicolon then parseExpression src f s else pure s
          let s := (eatK src TK.semicolon s).2
          let s ← skipCN src f s
          let s ← if s.cur.kind ≠ TK.rparen then parseExpression src f s else pure s
          pure (NK.forStatement, s)
    let kind := kr.1
    let s := kr.2
    let s ←
      if kind ≠ NK.forStatement then do
        let s ← skipCN src f s
        parseExpression src f s
      else pure s
    let s ← skipCN src f s
    let s := expectK src TK.rparen s
    let s ← skipCN src f s
    let s ← parseStatementOrDecl src f s
    pure (pushN s ⟨kind, if rAw.1 then 4 else 0, start, s.cur.tstart, 0⟩)

/-- `parse_while_statement`. -/
def parseWhileStatement (src : List Nat) : Nat → PState → Option PState
  | 0, _ => none
  | f + 1, s => do
    let start := s.cur.tstart
    let s := advanceP src s
    let s ← skipCN src f s
    let s := expectK src TK.lparen s
    let s ← skipCN src f s
    let s ← parseExpression src f s
    let s ← skipCN src f s
    let s := expectK src TK.rparen s
    let s ← skipCN src f s
    let s ← parseStatementOrDecl src f s
    pure (pushN s ⟨NK.whileStatement, 0, start, s.cur.tstart, 0⟩)

/-- `parse_do_while_statement`. -/
def parseDoWhileStatement (src : List Nat) : Nat → PState → Option PState
  | 0, _ => none
  | f + 1, s => do
    let start := s.cur.tstart
    let s := advanceP src s
    let s ← skipCN src f s
    let s ← parseStatementOrDecl src f s
    let s ← skipCN src f s
    let s := expectK src TK.kwWhile s
    let s ← skipCN src f s
    let s := expectK src TK.lparen s
    let s ← skipCN src f s
    let s ← parseExpression src f s
    let s ← skipCN src f s
    let s := expectK src TK.rparen s
    let s := (eatK src TK.semicolon s).2
    pure (pushN s ⟨NK.doWhileStatement, 0, start, s.cur.tstart, 0⟩)

/-- `parse_switch_statement`. -/
def parseSwitchStatement (src : List Nat) : Nat → PState → Option PState
  | 0, _ => none
  | f + 1, s => do
    let start := s.cur.tstart
    let s := advanceP src s
    let s ← skipCN src f s
    let s := expectK src TK.lparen s
    let s ← skipCN src f s
    let s ← parseExpression src f s
    let s ← skipCN src f s
    let s := expectK src TK.rparen s
    let s ← skipCN src f s
    let s := expectK src TK.lbrace s
    let s ← skipCN src f s
    let r ← switchCaseLoop src f s 0
    let s := expectK src TK.rbrace r.2
    pure (pushN s ⟨NK.switchStatement, 0, start, s.cur.tstart, r.1⟩)

/-- Case loop of `parse_switch_statement`. -/
def switchCaseLoop (src : List Nat) : Nat → PState → Nat → Option (Nat × PState)
  | 0, _, _ => none
  | f + 1, s, caseCount =>
    if s.cur.kind ≠ TK.rbrace ∧ s.cur.kind ≠ TK.eof then do
      let caseStart := s.cur.tstart
      let rD := eatK src TK.kwDefault s
      let s ←
        if rD.1 then pure rD.2
        else do
          let s := expectK src TK.kwCase rD.2
          let s ← skipCN src f s
          parseExpression src f s
      let s ← skipCN src f s
      let s := expectK src TK.colon s
      let s ← skipCN src f s
      let r ← caseStmtsLoop src f s 0
      let s := r.2
      let s := pushN s ⟨NK.switchCase, if rD.1 then 1 else 0, caseStart, s.cur.tstart, r.1⟩
      switchCaseLoop src f s (caseCount + 1)
    else pure (caseCount, s)

/-- Per-case statement loop of `parse_switch_statement`. -/
def caseStmtsLoop (src : List Nat) : Nat → PState → Nat → Option (Nat × PState)
  | 0, _, _ => none
  | f + 1, s, n =>
    if s.cur.kind ≠ TK.kwCase ∧ s.cur.kind ≠ TK.kwDefault ∧
        s.cur.kind ≠ TK.rbrace ∧ s.cur.kind ≠ TK.eof then do
      let s ← parseStatementOrDecl src f s
      let s ← skipCN src f s
      caseStmtsLoop src f s (n + 1)
    else pure (n, s)

/-- `parse_return_statement`. -/
def parseReturnStatement (src : List Nat) : Nat → PState → Option PState
  | 0, _ => none
  | f + 1, s => do
    let start := s.cur.tstart
    let s := advanceP src s
    let hasArg := decide (s.cur.kind ≠ TK.semicolon ∧ s.cur.kind ≠ TK.rbrace ∧
                          s.cur.kind ≠ TK.newline)
    let s ←
      if hasArg then do
        let s ← skipCN src f s
        parseExpression src f s
      else pure s
    let s := (eatK src TK.semicolon s).2
    pure (pushN s ⟨NK.returnStatement, if hasArg then 1 else 0, start, s.cur.tstart, 0⟩)

/-- `parse_throw_statement`. -/
def parseThrowStatement (src : List Nat) : Nat → PState → Option PState
  | 0, _ => none
  | f + 1, s => do
    let start := s.cur.tstart
    let s := advanceP src s
    let s ← skipCN src f s
    let s ← parseExpression src f s
    let s := (eatK src TK.semicolon s).2
    pure (pushN s ⟨NK.throwStatement, 0, start, s.cur.tstart, 0⟩)

/-- `parse_try_statement`. -/
def parseTryStatement (src : List Nat) : Nat → PState → Option PState
  | 0, _ => none
  | f + 1, s => do
    let start := s.cur.tstart
    let s := advanceP src s
    let s ← skipCN src f s
    let s ← parseBlockStatement src f s
    let s ← skipCN src f s
    let rC := eatK src TK.kwCatch s
    let s ←
      if rC.1 then do
        let catchStart := rC.2.cur.tstart
        let s ← skipCN src f rC.2
        let rL := eatK src TK.lparen s
        let s ←
          if rL.1 then do
            let s ← skipCN src f rL.2
            let s ← parseBindingPattern src f s
            let s ← skipCN src f s
            pure (expectK src TK.rparen s)
          else pure rL.2
        let s ← skipCN src f s
        let s ← parseBlockStatement src f s
        pure (pushN s ⟨NK.catchClause, 0, catchStart, s.cur.tstart, 0⟩)
      else pure rC.2
    let s ← skipCN src f s
    let rF := eatK src TK.kwFinally s
    let s ←
      if rF.1 then do
        let s ← skipCN src f rF.2
        parseBlockStatement src f s
      else pure rF.2
    let flags := Nat.lor (if rC.1 then 1 else 0) (if rF.1 then 2 else 0)
    pure (pushN s ⟨NK.tryStatement, flags, start, s.cur.tstart, 0⟩)

/-- `parse_break_statement`. -/
def parseBreakStatement (src : List Nat) : Nat → PState → Option PState
  | 0, _ => none
  | _ + 1, s =>
    let start := s.cur.tstart
    let s := advanceP src s
    let s := if s.cur.kind = TK.identifier then parseIdentifier src s else s
    let s := (eatK src TK.semicolon s).2
    some (pushN s ⟨NK.breakStatement, 0, start, s.cur.tstart, 0⟩)

/-- `parse_continue_statement`. -/
def parseContinueStatement (src : List Nat) : Nat → PState → Option PState
  | 0, _ => none
  | _ + 1, s =>
    let start := s.cur.tstart
    let s := advanceP src s
    let s := if s.cur.kind = TK.identifier then parseIdentifier src s else s
    let s := (eatK src TK.semicolon s).2
    some (pushN s ⟨NK.continueStatement, 0, start, s.cur.tstart, 0⟩)

/-- `parse_expression_statement`. -/
def parseExpressionStatement (src : List Nat) : Nat → PState → Option PState
  | 0, _ => none
  | f + 1, s => do
    let start := s.cur.tstart
    let s ← parseExpression src f s
    let s := (eatK src TK.semicolon s).2
    pure (pushN s ⟨NK.expressionStatement, 0, start, s.cur.tstart, 0⟩)

/-- `parse_expression` (assignment, then comma-sequence loop). -/
def parseExpression (src : List Nat) : Nat → PState → Option PState
  | 0, _ => none
  | f + 1, s => do
    let s ← parseAssignmentExpr src f s
    exprCommaLoop src f s

/-- Sequence loop of `parse_expression`. -/
def exprCommaLoop (src : List Nat) : Nat → PState → Option PState
  | 0, _ => none
  | f + 1, s =>
    let r := eatK src TK.comma s
    if r.1 then do
      let s ← skipCN src f r.2
      let s ← parseAssignmentExpr src f s
      exprCommaLoop src f s
    else some r.2

/-- `parse_assignment_expression` (arrow shorthand, conditional,
right-associative assignment operators). -/
def parseAssignmentExpr (src : List Nat) : Nat → PState → Option PState
  | 0, _ => none
  | f + 1, s =>
    let start := s.cur.tstart
    if s.cur.kind = TK.identifier ∧ s.peek.kind = TK.arrow then do
      let s := parseIdentifier src s
      let s := advanceP src s
      let s ← skipCN src f s
      let s ← parseArrowBody src f s
      pure (pushN s ⟨NK.arrowFunctionExpression, 0, start, s.cur.tstart, 0⟩)
    else do
      let s ← parseConditionalExpr src f s
      if isAssignOp s.cur.kind then do
        let s := advanceP src s
        let s ← skipCN src f s
        let s ← parseAssignmentExpr src f s
        pure (pushN s ⟨NK.assignmentExpression, 0, start, s.cur.tstart, 0⟩)
      else pure s

/-- `parse_arrow_body`. -/
def parseArrowBody (src : List Nat) : Nat → PState → Option PState
  | 0, _ => none
  | f + 1, s =>
    if s.cur.kind = TK.lbrace then parseBlockStatement src f s
    else parseAssignmentExpr src f s

/-- `parse_conditional_expression`. -/
def parseConditionalExpr (src : List Nat) : Nat → PState → Option PState
  | 0, _ => none
  | f + 1, s => do
    let start := s.cur.tstart
    let s ← parseLogicalOrExpr src f s
    let r := eatK src TK.question s
    if r.1 then do
      let s ← skipCN src f r.2
      let s ← parseAssignmentExpr src f s
      let s ← skipCN src f s
      let s := expectK src TK.colon s
      let s ← skipCN src f s
      let s ← parseAssignmentExpr src f s
      pure (pushN s ⟨NK.conditionalExpression, 0, start, s.cur.tstart, 0⟩)
    else pure r.2

/-- `parse_logical_or_expression`. -/
def parseLogicalOrExpr (src : List Nat) : Nat → PState → Option PState
  | 0, _ => none
  | f + 1, s => do
    let start := s.cur.tstart
    let s ← parseLogicalAndExpr src f s
    orLoop src f start s

def orLoop (src : List Nat) : Nat → Nat → PState → Option PState
  | 0, _, _ => none
  | f + 1, start, s =>
    if s.cur.kind = TK.pipePipe ∨ s.cur.kind = TK.questionQuestion then do
      let s := advanceP src s
      let s ← skipCN src f s
      let s ← parseLogicalAndExpr src f s
      orLoop src f start (pushN s ⟨NK.logicalExpression, 0, start, s.cur.tstart, 0⟩)
    else some s

/-- `parse_logical_and_expression`. -/
def parseLogicalAndExpr (src : List Nat) : Nat → PState → Option PState
  | 0, _ => none
  | f + 1, s => do
    let start := s.cur.tstart
    let s ← parseBitOrExpr src f s
    andLoop src f start s

def andLoop (src : List Nat) : Nat → Nat → PState → Option PState
  | 0, _, _ => none
  | f + 1, start, s =>
    if s.cur.kind = TK.ampAmp then do
      let s := advanceP src s
      let s ← skipCN src f s
      let s ← parseBitOrExpr src f s
      andLoop src f start (pushN s ⟨NK.logicalExpression, 0, start, s.cur.tstart, 0⟩)
    else some s

/-- `parse_bitwise_or_expression`. -/
def parseBitOrExpr (src : List Nat) : Nat → PState → Option PState
  | 0, _ => none
  | f + 1, s => do
    let start := s.cur.tstart
    let s ← parseBitXorExpr src f s
    bitOrLoop src f start s

def bitOrLoop (src : List Nat) : Nat → Nat → PState → Option PState
  | 0, _, _ => none
  | f + 1, start, s =>
    if s.cur.kind = TK.pipe then do
      let s := advanceP src s
      let s ← skipCN src f s
      let s ← parseBitXorExpr src f s
      bitOrLoop src f start (pushN s ⟨NK.binaryExpression, 0, start, s.cur.tstart, 0⟩)
    else some s

/-- `parse_bitwise_xor_expression`. -/
def parseBitXorExpr (src : List Nat) : Nat → PState → Option PState
  | 0, _ => none
  | f + 1, s => do
    let start := s.cur.tstart
    let s ← parseBitAndExpr src f s
    bitXorLoop src f start s

def bitXorLoop (src : List Nat) : Nat → Nat → PState → Option PState
  | 0, _, _ => none
  | f + 1, start, s =>
    if s.cur.kind = TK.caret then do
      let s := advanceP src s
      let s ← skipCN src f s
      let s ← parseBitAndExpr src f s
      bitXorLoop src f start (pushN s ⟨NK.binaryExpression, 0, start, s.cur.tstart, 0⟩)
    else some s

/-- `parse_bitwise_and_expression`. -/
def parseBitAndExpr (src : List Nat) : Nat → PState → Option PState
  | 0, _ => none
  | f + 1, s => do
    let start := s.cur.tstart
    let s ← parseEqualityExpr src f s
    bitAndLoop src f start s

def bitAndLoop (src : List Nat) : Nat → Nat → PState → Option PState
  | 0, _, _ => none
  | f + 1, start, s =>
    if s.cur.kind = TK.amp then do
      let s := advanceP src s
      let s ← skipCN src f s
      let s ← parseEqualityExpr src f s
      bitAndLoop src f start (pushN s ⟨NK.binaryExpression, 0, start, s.cur.tstart, 0⟩)
    else some s

/-- `parse_equality_expression`. -/
def parseEqualityExpr (src : List Nat) : Nat → PState → Option PState
  | 0, _ => none
  | f + 1, s => do
    let start := s.cur.tstart
    let s ← parseRelationalExpr src f s
    eqLoop src f start s

def eqLoop (src : List Nat) : Nat → Nat → PState → Option PState
  | 0, _, _ => none
  | f + 1, start, s =>
    if s.cur.kind = TK.eqEq ∨ s.cur.kind = TK.bangEq ∨ s.cur.kind = TK.eqEqEq ∨
        s.cur.kind = TK.bangEqEq then do
      let s := advanceP src s
      let s ← skipCN src f s
      let s ← parseRelationalExpr src f s
      eqLoop src f start (pushN s ⟨NK.binaryExpression, 0, start, s.cur.tstart, 0⟩)
    else some s

/-- `parse_relational_expression`. -/
def parseRelationalExpr (src : List Nat) : Nat → PState → Option PState
  | 0, _ => none
  | f + 1, s => do
    let start := s.cur.tstart
    let s ← parseShiftExpr src f s
    relLoop src f start s

def relLoop (src : List Nat) : Nat → Nat → PState → Option PState
  | 0, _, _ => none
  | f + 1, start, s =>
    if s.cur.kind = TK.lt ∨ s.cur.kind = TK.gt ∨ s.cur.kind = TK.ltEq ∨
        s.cur.kind = TK.gtEq ∨ s.cur.kind = TK.kwInstanceof ∨ s.cur.kind = TK.kwIn then do
      let s := advanceP src s
      let s ← skipCN src f s
      let s ← parseShiftExpr src f s
      relLoop src f start (pushN s ⟨NK.binaryExpression, 0, start, s.cur.tstart, 0⟩)
    else some s

/-- `parse_shift_expression`. -/
def parseShiftExpr (src : List Nat) : Nat → PState → Option PState
  | 0, _ => none
  | f + 1, s => do
    let start := s.cur.tstart
    let s ← parseAdditiveExpr src f s
    shiftLoop src f start s

def shiftLoop (src : List Nat) : Nat → Nat → PState → Option PState
  | 0, _, _ => none
  | f + 1, start, s =>
    if s.cur.kind = TK.ltLt ∨ s.cur.kind = TK.gtGt ∨ s.cur.kind = TK.gtGtGt then do
      let s := advanceP src s
      let s ← skipCN src f s
      let s ← parseAdditiveExpr src f s
      shiftLoop src f start (pushN s ⟨NK.binaryExpression, 0, start, s.cur.tstart, 0⟩)
    else some s

/-- `parse_additive_expression`. -/
def parseAdditiveExpr (src : List Nat) : Nat → PState → Option PState
  | 0, _ => none
  | f + 1, s => do
    let start := s.cur.tstart
    let s ← parseMultiplicativeExpr src f s
    addLoop src f start s

def addLoop (src : List Nat) : Nat → Nat → PState → Option PState
  | 0, _, _ => none
  | f + 1, start, s =>
    if s.cur.kind = TK.plus ∨ s.cur.kind = TK.minus then do
      let s := advanceP src s
      let s ← skipCN src f s
      let s ← parseMultiplicativeExpr src f s
      addLoop src f start (pushN s ⟨NK.binaryExpression, 0, start, s.cur.tstart, 0⟩)
    else some s

/-- `parse_multiplicative_expression`. -/
def parseMultiplicativeExpr (src : List Nat) : Nat → PState → Option PState
  | 0, _ => none
  | f + 1, s => do
    let start := s.cur.tstart
    let s ← parseExponentExpr src f s
    mulLoop src f start s

def mulLoop (src : List Nat) : Nat → Nat → PState → Option PState
  | 0, _, _ => none
  | f + 1, start, s =>
    if s.cur.kind = TK.star ∨ s.cur.kind = TK.slash ∨ s.cur.kind = TK.percent then do
      let s := advanceP src s
      let s ← skipCN src f s
      let s ← parseExponentExpr src f s
      mulLoop src f start (pushN s ⟨NK.binaryExpression, 0, start, s.cur.tstart, 0⟩)
    else some s

/-- `parse_exponentiation_expression` (right-associative). -/
def parseExponentExpr (src : List Nat) : Nat → PState → Option PState
  | 0, _ => none
  | f + 1, s => do
    let start := s.cur.tstart
    let s ← parseUnaryExpr src f s
    let r := eatK src TK.starStar s
    if r.1 then do
      let s ← skipCN src f r.2
      let s ← parseExponentExpr src f s
      pure (pushN s ⟨NK.binaryExpression, 0, start, s.cur.tstart, 0⟩)
    else pure r.2

/-- `parse_unary_expression`. -/
def parseUnaryExpr (src : List Nat) : Nat → PState → Option PState
  | 0, _ => none
  | f + 1, s =>
    let start := s.cur.tstart
    let k := s.cur.kind
    if k = TK.bang ∨ k = TK.tilde ∨ k = TK.plus ∨ k = TK.minus ∨ k = TK.kwTypeof ∨
        k = TK.kwVoid ∨ k = TK.kwDelete then do
      let s := advanceP src s
      let s ← skipCN src f s
      let s ← parseUnaryExpr src f s
      pure (pushN s ⟨NK.unaryExpression, 0, start, s.cur.tstart, 0⟩)
    else if k = TK.plusPlus ∨ k = TK.minusMinus then do
      let s := advanceP src s
      let s ← skipCN src f s
      let s ← parseUnaryExpr src f s
      pure (pushN s ⟨NK.updateExpression, 0, start, s.cur.tstart, 0⟩)
    else if k = TK.kwAwait then do
      let s := advanceP src s
      let s ← skipCN src f s
      let s ← parseUnaryExpr src f s
      pure (pushN s ⟨NK.awaitExpression, 0, start, s.cur.tstart, 0⟩)
    else parsePostfixExpr src f s

/-- `parse_postfix_expression` (postfix update operators, flag bit 1). -/
def parsePostfixExpr (src : List Nat) : Nat → PState → Option PState
  | 0, _ => none
  | f + 1, s => do
    let start := s.cur.tstart
    let s ← parseCallExpr src f s
    if s.cur.kind = TK.plusPlus ∨ s.cur.kind = TK.minusMinus then
      let s := advanceP src s
      pure (pushN s ⟨NK.updateExpression, 1, start, s.cur.tstart, 0⟩)
    else pure s

/-- `parse_call_expression`. -/
def parseCallExpr (src : List Nat) : Nat → PState → Option PState
  | 0, _ => none
  | f + 1, s => do
    let start := s.cur.tstart
    let s ← parseMemberExpr src f s
    callLoop src f start s

/-- Call/member/tagged-template loop of `parse_call_expression`. -/
def callLoop (src : List Nat) : Nat → Nat → PState → Option PState
  | 0, _, _ => none
  | f + 1, start, s =>
    if s.cur.kind = TK.lparen then do
      let s ← parseArguments src f s
      callLoop src f start (pushN s ⟨NK.callExpression, 0, start, s.cur.tstart, 0⟩)
    else if s.cur.kind = TK.lbracket then do
      let s := advanceP src s
      let s ← skipCN src f s
      let s ← parseExpression src f s
      let s ← skipCN src f s
      let s := expectK src TK.rbracket s
      callLoop src f start (pushN s ⟨NK.memberExpression, 16, start, s.cur.tstart, 0⟩)
    else if s.cur.kind = TK.dot ∨ s.cur.kind = TK.questionDot then do
      let optl := decide (s.cur.kind = TK.questionDot)
      let s := advanceP src s
      let s ← skipCN src f s
      let s := parseIdentifier src s
      callLoop src f start
        (pushN s ⟨NK.memberExpression, if optl then 1 else 0, start, s.cur.tstart, 0⟩)
    else if s.cur.kind = TK.template then do
      let s := parseTemplateLit src s
      callLoop src f start (pushN s ⟨NK.taggedTemplateExpression, 0, start, s.cur.tstart, 0⟩)
    else some s

/-- `parse_arguments`. -/
def parseArguments (src : List Nat) : Nat → PState → Option PState
  | 0, _ => none
  | f + 1, s => do
    let s := expectK src TK.lparen s
    let s ← skipCN src f s
    let s ← argsLoop src f s
    pure (expectK src TK.rparen s)

/-- Argument loop of `parse_arguments`. -/
def argsLoop (src : List Nat) : Nat → PState → Option PState
  | 0, _ => none
  | f + 1, s =>
    if s.cur.kind ≠ TK.rparen ∧ s.cur.kind ≠ TK.eof then do
      let s ←
        if s.cur.kind = TK.dotDotDot then parseSpreadElement src f s
        else parseAssignmentExpr src f s
      let s ← skipCN src f s
      let r := eatK src TK.comma s
      if r.1 then do
        let s ← skipCN src f r.2
        argsLoop src f s
      else pure r.2
    else pure s

/-- `parse_spread_element`. -/
def parseSpreadElement (src : List Nat) : Nat → PState → Option PState
  | 0, _ => none
  | f + 1, s => do
    let start := s.cur.tstart
    let s := advanceP src s
    let s ← parseAssignmentExpr src f s
    pure (pushN s ⟨NK.spreadElement, 0, start, s.cur.tstart, 0⟩)

/-- `parse_member_expression` (`new` chains, else primary). -/
def parseMemberExpr (src : List Nat) : Nat → PState → Option PState
  | 0, _ => none
  | f + 1, s => do
    let start := s.cur.tstart
    let r := eatK src TK.kwNew s
    if r.1 then do
      let s ← skipCN src f r.2
      let s ← parseMemberExpr src f s
      let s ← if s.cur.kind = TK.lparen then parseArguments src f s else pure s
      pure (pushN s ⟨NK.newExpression, 0, start, s.cur.tstart, 0⟩)
    else parsePrimaryExpr src f r.2

/-- `parse_primary_expression`; an unknown token is skipped. -/
def parsePrimaryExpr (src : List Nat) : Nat → PState → Option PState
  | 0, _ => none
  | f + 1, s =>
    let start := s.cur.tstart
    let k := s.cur.kind
    if k = TK.identifier then some (parseIdentifier src s)
    else if k = TK.number ∨ k = TK.bigInt ∨ k = TK.string ∨ k = TK.kwTrue ∨
        k = TK.kwFalse ∨ k = TK.kwNull then
      let s := advanceP src s
      some (pushN s ⟨NK.literal, 0, start, s.cur.tstart, 0⟩)
    else if k = TK.template then some (parseTemplateLit src s)
    else if k = TK.kwThis then
      let s := advanceP src s
      some (pushN s ⟨NK.thisExpression, 0, start, s.cur.tstart, 0⟩)
    else if k = TK.kwSuper then
      let s := advanceP src s
      some (pushN s ⟨NK.superNode, 0, start, s.cur.tstart, 0⟩)
    else if k = TK.lparen then do
      let s := advanceP src s
      let s ← skipCN src f s
      let s ← parseExpression src f s
      let s ← skipCN src f s
      pure (expectK src TK.rparen s)
    else if k = TK.lbracket then parseArrayExpr src f s
    else if k = TK.lbrace then parseObjectExpr src f s
    else if k = TK.kwFunction then parseFunctionExpr src f s
    else if k = TK.kwAsync then
      if s.peek.kind = TK.kwFunction then parseFunctionExpr src f s
      else do
        let s := advanceP src s
        let s ← skipCN src f s
        pure (parseIdentifier src s)
    else if k = TK.kwClass then parseClassExpr src f s
    else if k = TK.kwYield then do
      let s := advanceP src s
      let s ← skipCN src f s
      let s ←
        if s.cur.kind ≠ TK.semicolon ∧ s.cur.kind ≠ TK.rbrace ∧ s.cur.kind ≠ TK.rparen ∧
            s.cur.kind ≠ TK.rbracket ∧ s.cur.kind ≠ TK.comma ∧ s.cur.kind ≠ TK.colon then
          parseAssignmentExpr src f s
        else pure s
      pure (pushN s ⟨NK.yieldExpression, 0, start, s.cur.tstart, 0⟩)
    else some (advanceP src s)

/-- `parse_array_expression`. -/
def parseArrayExpr (src : List Nat) : Nat → PState → Option PState
  | 0, _ => none
  | f + 1, s => do
    let start := s.cur.tstart
    let s := advanceP src s
    let s ← skipCN src f s
    let r ← arrayExprLoop src f s 0
    let s := expectK src TK.rbracket r.2
    pure (pushN s ⟨NK.arrayExpression, 0, start, s.cur.tstart, r.1⟩)

/-- Element loop of `parse_array_expression`. -/
def arrayExprLoop (src : List Nat) : Nat → PState → Nat → Option (Nat × PState)
  | 0, _, _ => none
  | f + 1, s, count =>
    if s.cur.kind ≠ TK.rbracket ∧ s.cur.kind ≠ TK.eof then do
      let s ←
        if s.cur.kind = TK.comma then pure (advanceP src s)
        else if s.cur.kind = TK.dotDotDot then parseSpreadElement src f s
        else parseAssignmentExpr src f s
      let count := count + 1
      let s ← skipCN src f s
      let r := eatK src TK.comma s
      if r.1 then do
        let s ← skipCN src f r.2
        arrayExprLoop src f s count
      else pure (count, r.2)
    else pure (count, s)

/-- `parse_object_expression`. -/
def parseObjectExpr (src : List Nat) : Nat → PState → Option PState
  | 0, _ => none
  | f + 1, s => do
    let start := s.cur.tstart
    let s := advanceP src s
    let s ← skipCN src f s
    let r ← objExprLoop src f s 0
    let s := expectK src TK.rbrace r.2
    pure (pushN s ⟨NK.objectExpression, 0, start, s.cur.tstart, r.1⟩)

/-- Property loop of `parse_object_expression`. -/
def objExprLoop (src : List Nat) : Nat → PState → Nat → Option (Nat × PState)
  | 0, _, _ => none
  | f + 1, s, count =>
    if s.cur.kind ≠ TK.rbrace ∧ s.cur.kind ≠ TK.eof then do
      let s ←
        if s.cur.kind = TK.dotDotDot then parseSpreadElement src f s
        else parseObjectProperty src f s
      let count := count + 1
      let s ← skipCN src f s
      let r := eatK src TK.comma s
      if r.1 then do
        let s ← skipCN src f r.2
        objExprLoop src f s count
      else pure (count, r.2)
    else pure (count, s)

/-- `parse_object_property` (getter/setter heuristic, async, generator,
computed keys, method shorthand, shorthand properties). -/
def parseObjectProperty (src : List Nat) : Nat → PState → Option PState
  | 0, _ => none
  | f + 1, s => do
    let start := s.cur.tstart
    let isGS := decide ((s.cur.kind = TK.kwGet ∨ s.cur.kind = TK.kwSet) ∧
                        s.peek.kind ≠ TK.colon ∧ s.peek.kind ≠ TK.lparen)
    let s ←
      if isGS then do
        let s := advanceP src s
        skipCN src f s
      else pure s
    let isAsy := decide (s.cur.kind = TK.kwAsync ∧ s.peek.kind ≠ TK.colon ∧
                         s.peek.kind ≠ TK.lparen)
    let fl1 : Nat := if isAsy then 4 else 0
    let s ←
      if isAsy then do
        let s := advanceP src s
        skipCN src f s
      else pure s
    let rStar := eatK src TK.star s
    let fl2 := Nat.lor fl1 (if rStar.1 then 8 else 0)
    let s ← if rStar.1 then skipCN src f rStar.2 else pure rStar.2
    let rB := eatK src TK.lbracket s
    let fl3 := Nat.lor fl2 (if rB.1 then 16 else 0)
    let s ←
      if rB.1 then do
        let s ← parseExpression src f rB.2
        pure (expectK src TK.rbracket s)
      else pure (parseIdentifier src rB.2)
    let s ← skipCN src f s
    if s.cur.kind = TK.lparen then do
      let s ← parseFunctionParams src f s
      let s ← skipCN src f s
      let s ← parseBlockStatement src f s
      pure (pushN s ⟨NK.property, fl3, start, s.cur.tstart, 0⟩)
    else do
      let rC := eatK src TK.colon s
      if rC.1 then do
        let s ← skipCN src f rC.2
        let s ← parseAssignmentExpr src f s
        pure (pushN s ⟨NK.property, fl3, start, s.cur.tstart, 0⟩)
      else
        pure (pushN rC.2 ⟨NK.property, Nat.lor fl3 32, start, rC.2.cur.tstart, 0⟩)

/-- `parse_function_expression`. -/
def parseFunctionExpr (src : List Nat) : Nat → PState → Option PState
  | 0, _ => none
  | f + 1, s => do
    let start := s.cur.tstart
    let r := eatK src TK.kwAsync s
    let fl1 : Nat := if r.1 then 4 else 0
    let s ← if r.1 then skipCN src f r.2 else pure r.2
    let s := expectK src TK.kwFunction s
    let s ← skipCN src f s
    let r2 := eatK src TK.star s
    let fl2 := Nat.lor fl1 (if r2.1 then 8 else 0)
    let s ← if r2.1 then skipCN src f r2.2 else pure r2.2
    let s := if s.cur.kind = TK.identifier then parseIdentifier src s else s
    let s ← skipCN src f s
    let s ← parseFunctionParams src f s
    let s ← skipCN src f s
    let s ← parseBlockStatement src f s
    pure (pushN s ⟨NK.functionExpression, fl2, start, s.cur.tstart, 0⟩)

/-- `parse_class_expression`. -/
def parseClassExpr (src : List Nat) : Nat → PState → Option PState
  | 0, _ => none
  | f + 1, s => do
    let start := s.cur.tstart
    let s := advanceP src s
    let s ← skipCN src f s
    let s := if s.cur.kind = TK.identifier then parseIdentifier src s else s
    let s ← skipCN src f s
    let r := eatK src TK.kwExtends s
    let s ←
      if r.1 then do
        let s ← skipCN src f r.2
        parseExpression src f s
      else pure r.2
    let s ← skipCN src f s
    let s ← parseClassBody src f s
    pure (pushN s ⟨NK.classExpression, 0, start, s.cur.tstart, 0⟩)

/-- Top-level statement loop of `parse_program`. -/
def programLoop (src : List Nat) : Nat → PState → Option PState
  | 0, _ => none
  | f + 1, s =>
    if s.cur.kind ≠ TK.eof then do
      let s ← parseStatementOrDecl src f s
      let s ← skipCN src f s
      programLoop src f s
    else some s

end

/-- `parse_program`: statements until end of input, then the synthetic
Program root is inserted at array position 0, spanning from the first
token's start to the final token's end, with `extra` the number of other
nodes. -/
def parseProgramF (src : List Nat) : Nat → Option PState
  | 0 => none
  | f + 1 => do
    let s0 := initP src
    let start := s0.cur.tstart
    let s ← skipCN src f s0
    let s ← programLoop src f s
    pure { s with nodes := ⟨NK.program, 0, start, s.cur.tstop, s.nodes.length⟩ :: s.nodes }

/-- `parse_count(source)` of `wasm-js/src/lib.rs`. -/
def jsParseCountF (src : List Nat) (fuel : Nat) : Option Nat :=
  (parseProgramF src fuel).map (·.nodes.length)

/-- One 16-byte record of `Parser::parse_binary`, little endian with two
padding zero bytes. -/
def jsRecord (n : PNode) : List Nat :=
  [n.kind, n.flags, 0, 0] ++ le4 n.nstart ++ le4 n.nstop ++ le4 n.extra

/-- `parse_binary(source)` of `wasm-js/src/lib.rs`: 4-byte node-count
header, then one 16-byte record per node. -/
def jsParseBinaryF (src : List Nat) (fuel : Nat) : Option (List Nat) :=
  (parseProgramF src fuel).map (fun s =>
    le4 s.nodes.length ++ (s.nodes.map jsRecord).flatten)

end JS

/-! ## Claim-statement accessors -/

namespace MD

/-- Nodes of a tree-mode parse result (empty on fuel exhaustion or error;
the theorems below always exhibit the `some (.ok _)` case). -/
def treeNodesOf : Option (Except SynthErr (List TNode)) → List TNode
  | some (.ok t) => t
  | _ => []

/-- Payload lookup in a node's `data` map. -/
def dataLookup (d : List (String × MVal)) (k : String) : Option MVal :=
  (d.find? (fun e => e.1 == k)).map (·.2)

/-- The `key` payloads of all nodes of type `ty`, in arena order. -/
def payloadsOf (nodes : List TNode) (ty k : String) : List (Option MVal) :=
  (nodes.filter (fun n => n.nodeType == ty)).map (fun n => dataLookup (n.data.getD []) k)

/-- Length of the run of `#` bytes starting a block (the claim's "number
of '#' characters"). -/
def hashRunL : List Nat → Nat
  | [] => 0
  | b :: r => if b = 35 then hashRunL r + 1 else 0

def hashRun (src : List Nat) (p : Nat) : Nat := hashRunL (src.drop p)

/-- The byte class after the `#` run that lets a heading stand: space,
newline, or end of input. -/
def headFollow (o : Option Nat) : Prop := o = some 32 ∨ o = some 10 ∨ o = none

instance (o : Option Nat) : Decidable (headFollow o) :=
  inferInstanceAs (Decidable (_ ∨ _ ∨ _))

/-- The fenced-code scenario input:
three backticks, `rust`, newline, `fn main() \x7b\x7d`, newline, three
backticks. -/
def c3input : List Nat :=
  [96, 96, 96, 114, 117, 115, 116, 10,
   102, 110, 32, 109, 97, 105, 110, 40, 41, 32, 123, 125, 10,
   96, 96, 96]

end MD

end Synth

/-! # Theorems -/

namespace Synth

/-- Position bound from a successful indexed lookup. -/
theorem get?_lt_length {l : List Nat} {p b : Nat} (h : l.get? p = some b) :
    p < l.length := by
  by_contra hc
  rw [List.get?_eq_none.mpr (by omega)] at h
  exact Option.noConfusion h

/-- Unfolding a `drop` at a position with a known byte. -/
theorem drop_eq_cons_of_get? {l : List Nat} {p b : Nat} (h : l.get? p = some b) :
    l.drop p = b :: l.drop (p + 1) := by
  have hp : p < l.length := get?_lt_length h
  rw [List.drop_eq_getElem_cons hp]
  simp only [List.get?_eq_getElem?, List.getElem?_eq_getElem hp, Option.some_inj] at h
  simp [h]

/-- An identifier byte is none of space, tab, carriage return or newline. -/
theorem isIdentChar_not_ws {b : Nat} (h : JS.isIdentChar b = true) :
    b ≠ 32 ∧ b ≠ 9 ∧ b ≠ 13 ∧ b ≠ 10 := by
  simp only [JS.isIdentChar, decide_eq_true_eq] at h
  omega

/-- On a source made entirely of identifier bytes, the identifier run
consumes everything. -/
theorem identRunF_all {src : List Nat} (h : ∀ b ∈ src, JS.isIdentChar b = true) :
    ∀ f p, p ≤ src.length → src.length - p ≤ f → JS.identRunF src f p = src.length := by
  intro f
  induction f with
  | zero =>
    intro p hp hf
    have : p = src.length := by omega
    simp [JS.identRunF, this]
  | succ f ih =>
    intro p hp hf
    rw [JS.identRunF]
    cases hg : src.get? p with
    | none =>
      have := List.get?_eq_none.mp hg
      simp only
      omega
    | some b =>
      have hb : b ∈ src := List.get?_mem hg
      have hlt : p < src.length := get?_lt_length hg
      simp only [h b hb, if_true]
      exact ih (p + 1) (by omega) (by omega)

set_option maxRecDepth 8192 in
/-- `next_token` on an all-identifier source: one token covering the whole
input, with the keyword-table lookup as its kind. -/
theorem nextToken_all_ident {src : List Nat} (hne : src ≠ [])
    (hall : ∀ b ∈ src, JS.isIdentChar b = true)
    (hstart : JS.isIdentStart (src.headD 0) = true) :
    JS.nextToken src 0 = (⟨JS.lookupKw src, 0, src.length⟩, src.length) := by
  obtain ⟨b, rest, rfl⟩ := List.exists_cons_of_ne_nil hne
  have hb : JS.isIdentChar b = true := hall b (List.mem_cons_self b rest)
  have hws := isIdentChar_not_ws hb
  have hskip : JS.skipWs (b :: rest) 0 = 0 := by
    rw [JS.skipWs, show (b :: rest).length + 1 = rest.length + 2 from by simp,
      JS.skipWsF]
    have hc : ¬(b = 32 ∨ b = 9 ∨ b = 13) := by tauto
    simp [show (b :: rest).get? 0 = some b from rfl, hc]
  rw [JS.nextToken, hskip]
  have hget : (b :: rest).get? 0 = some b := rfl
  rw [hget]
  simp only
  have hrun : JS.identRun (b :: rest) 0 = (b :: rest).length := by
    rw [JS.identRun]
    exact identRunF_all hall _ 0 (by omega) (by omega)
  have hb10 : ¬ b = 10 := hws.2.2.2
  have hstart' : JS.isIdentStart b = true := hstart
  have hsl : slice (b :: rest) 0 (b :: rest).length = b :: rest := by
    simp [slice]
  simp only [hb10, if_false, ite_false, hstart', if_true, ite_true]
  simp only [JS.scanIdentifier, hrun, hsl]

/-- C10: on the two-byte input `"` `\` the tokenizer returns a String
token whose end offset (3) exceeds the source length (2): the backslash
escape advances the cursor by two bytes even at end of input.  No
out-of-bounds read occurs — every byte access in the embedding is the
checked `get?` that models the source's `get` — only the reported offset
overshoots. -/
theorem c10_string_escape_end_overshoot :
    JS.nextToken [34, 92] 0 = (⟨JS.TK.string, 0, 3⟩, 3) ∧
      ([34, 92] : List Nat).length < 3 := by
  constructor
  · rfl
  · decide

/-- C8: greedy longest-match punctuation: `===` is one strict-equal token,
`>>>=` is one `>>>=` token (each followed only by the end-of-input token),
and on `?.5` the first token is a Question token (the `?.` reading is
suppressed before a digit), not an optional-chaining token. -/
theorem c8_longest_match_operators :
    JS.jsTokenizeF [61, 61, 61] 10 =
        some [⟨JS.TK.eqEqEq, 0, 3⟩, ⟨JS.TK.eof, 3, 3⟩] ∧
      JS.jsTokenizeF [62, 62, 62, 61] 10 =
        some [⟨JS.TK.gtGtGtEq, 0, 4⟩, ⟨JS.TK.eof, 4, 4⟩] ∧
      JS.nextToken [63, 46, 53] 0 = (⟨JS.TK.question, 0, 1⟩, 1) := by
  refine ⟨rfl, rfl, rfl⟩

/-- C3, counterexample: on ` ```rust\nfn main() \x7b\x7d\n``` ` the single
code node's `value` payload is `fn main() \x7b\x7d\n` — it carries the
trailing newline of the code body (as the source's own
`test_code_block` asserts), so it differs from the spec's
`fn main() \x7b\x7d`. -/
theorem c3_counterexample_value_has_newline :
    MD.payloadsOf (MD.treeNodesOf (MD.mdParseF MD.c3input 25)) "code" "value" =
        [some (.s [102, 110, 32, 109, 97, 105, 110, 40, 41, 32, 123, 125, 10])] ∧
      MD.MVal.s [102, 110, 32, 109, 97, 105, 110, 40, 41, 32, 123, 125, 10] ≠
        MD.MVal.s [102, 110, 32, 109, 97, 105, 110, 40, 41, 32, 123, 125] := by
  constructor
  · rfl
  · decide

/-- C3, amended: parsing the fenced-code scenario input in tree mode
produces exactly one code node, with `lang == "rust"` and `value` equal to
the code body including its trailing newline, `fn main() \x7b\x7d\n`. -/
theorem c3_amended_one_code_node_rust :
    ((MD.treeNodesOf (MD.mdParseF MD.c3input 25)).filter
        (fun n => n.nodeType == "code")).length = 1 ∧
      MD.payloadsOf (MD.treeNodesOf (MD.mdParseF MD.c3input 25)) "code" "lang" =
        [some (.s [114, 117, 115, 116])] ∧
      MD.payloadsOf (MD.treeNodesOf (MD.mdParseF MD.c3input 25)) "code" "value" =
        [some (.s [102, 110, 32, 109, 97, 105, 110, 40, 41, 32, 123, 125, 10])] := by
  refine ⟨rfl, rfl, rfl⟩


/-- Keyword-table facts: entries are nonempty all-identifier strings with
an identifier-start head, their kinds are pairwise distinct, and no kind
is the Identifier kind. -/
theorem keywordTable_wf :
    (JS.keywordTable.all (fun e =>
      decide (e.1 ≠ []) && e.1.all JS.isIdentChar && JS.isIdentStart (e.1.headD 0) &&
        decide (e.2 ≠ JS.TK.identifier))) = true := by decide

/-- Keyword kinds are pairwise distinct. -/
theorem keywordTable_snd_distinct :
    JS.keywordTable.Pairwise (fun a b => a.2 ≠ b.2) := by decide

/-- A non-identifier lookup result comes from a table entry whose string
is the looked-up string. -/
theorem lookupKw_mem {s : List Nat} (h : JS.lookupKw s ≠ JS.TK.identifier) :
    ∃ e ∈ JS.keywordTable, e.1 = s ∧ JS.lookupKw s = e.2 := by
  cases hf : JS.keywordTable.find? (fun e => e.1 == s) with
  | none => exact absurd (by simp [JS.lookupKw, hf]) h
  | some e =>
    refine ⟨e, List.mem_of_find?_eq_some hf, ?_, by simp [JS.lookupKw, hf]⟩
    have hb := List.find?_some hf
    simp only [beq_iff_eq] at hb
    exact hb

/-- C7, counterexample: the claim quantifies over extensions by at least
one identifier character, but extending the keyword `in` by `stanceof`
tokenizes to the Instanceof keyword kind, not an Identifier token. -/
theorem c7_counterexample_instanceof :
    ([105, 110], JS.TK.kwIn) ∈ JS.keywordTable ∧
      ([115, 116, 97, 110, 99, 101, 111, 102] : List Nat) ≠ [] ∧
      (∀ b ∈ ([115, 116, 97, 110, 99, 101, 111, 102] : List Nat),
        JS.isIdentChar b = true) ∧
      (JS.nextToken ([105, 110] ++ [115, 116, 97, 110, 99, 101, 111, 102]) 0).1.kind =
        JS.TK.kwInstanceof ∧
      JS.TK.kwInstanceof ≠ JS.TK.identifier := by
  refine ⟨by decide, by decide, by decide, rfl, by decide⟩

/-- C7, amended: tokenizing each keyword string yields its specific
keyword kind (one token spanning the string, then end of input); and
extending any keyword by identifier characters never yields the original
keyword's kind — the token's kind is the keyword kind of the extended
string when that string is itself in the table, and Identifier
otherwise. -/
theorem c7_amended_keyword_tokens :
    (JS.keywordTable.all (fun e =>
        decide ((JS.jsTokenizeF e.1 20).map (fun ts => ts.map JS.Token.kind) =
          some [e.2, JS.TK.eof]))) = true ∧
      ∀ e ∈ JS.keywordTable, ∀ ext : List Nat, ext ≠ [] →
        (∀ b ∈ ext, JS.isIdentChar b = true) →
        (JS.nextToken (e.1 ++ ext) 0).1.kind ≠ e.2 ∧
          ((JS.nextToken (e.1 ++ ext) 0).1.kind = JS.TK.identifier ∨
            ∃ e2 ∈ JS.keywordTable, e2.1 = e.1 ++ ext ∧
              (JS.nextToken (e.1 ++ ext) 0).1.kind = e2.2) := by
  constructor
  · decide
  · intro e he ext hne hid
    have hwf := List.all_eq_true.mp keywordTable_wf e he
    simp only [Bool.and_eq_true, decide_eq_true_eq, List.all_eq_true] at hwf
    obtain ⟨⟨⟨hne1, hall1⟩, hhead⟩, hnid⟩ := hwf
    have hne2 : e.1 ++ ext ≠ [] := by
      intro hc
      exact hne1 (List.append_eq_nil.mp hc).1
    have hall2 : ∀ b ∈ e.1 ++ ext, JS.isIdentChar b = true := by
      intro b hb
      rcases List.mem_append.mp hb with h1 | h2
      · exact hall1 b h1
      · exact hid b h2
    have hhead2 : JS.isIdentStart ((e.1 ++ ext).headD 0) = true := by
      obtain ⟨a, t, hat⟩ := List.exists_cons_of_ne_nil hne1
      rw [hat] at hhead ⊢
      exact hhead
    have hnt := nextToken_all_ident hne2 hall2 hhead2
    rw [hnt]
    simp only
    have hself : e.1 ≠ e.1 ++ ext := by
      intro hc
      have h2 := congrArg List.length hc
      rw [List.length_append] at h2
      have : ext.length = 0 := by omega
      exact hne (List.length_eq_zero.mp this)
    by_cases hK : JS.lookupKw (e.1 ++ ext) = JS.TK.identifier
    · rw [hK]
      exact ⟨fun hc => hnid hc.symm, Or.inl rfl⟩
    · obtain ⟨e2, he2, heq1, heq2⟩ := lookupKw_mem hK
      constructor
      · intro hc
        by_cases hee : e2 = e
        · rw [hee] at heq1; exact hself heq1
        · have hsym : Symmetric (fun a b : List Nat × Nat => a.2 ≠ b.2) := by
            intro a b h heq
            exact h heq.symm
          have hne22 : e2.2 ≠ e.2 :=
            List.Pairwise.forall hsym keywordTable_snd_distinct he2 he hee
          rw [heq2] at hc
          exact hne22 hc
      · exact Or.inr ⟨e2, he2, heq1, heq2⟩

/-- C7 witness: `const` is in the table; extending it by `ant` gives an
Identifier token, never the Const kind. -/
theorem c7_amended_keyword_tokens_witness :
    (JS.nextToken ([99, 111, 110, 115, 116] ++ [97, 110, 116]) 0).1.kind ≠
      JS.TK.kwConst :=
  (c7_amended_keyword_tokens.2 ([99, 111, 110, 115, 116], JS.TK.kwConst)
    (by decide) [97, 110, 116] (by decide) (by decide)).1


/-! ### Heading-scanner lemmas (C6) -/

theorem hashRun_cons {src : List Nat} {p : Nat} (h : src.get? p = some 35) :
    MD.hashRun src p = MD.hashRun src (p + 1) + 1 := by
  unfold MD.hashRun
  rw [drop_eq_cons_of_get? h]
  simp [MD.hashRunL]

theorem hashRun_stop {src : List Nat} {p : Nat} (h : src.get? p ≠ some 35) :
    MD.hashRun src p = 0 := by
  unfold MD.hashRun
  cases hg : src.get? p with
  | none =>
    have := List.get?_eq_none.mp hg
    rw [List.drop_eq_nil_of_le this]
    rfl
  | some b =>
    rw [drop_eq_cons_of_get? hg]
    have hb : b ≠ 35 := by
      intro hc
      rw [hc] at hg
      exact h hg
    simp [MD.hashRunL, hb]

theorem hashRun_byte {src : List Nat} :
    ∀ i p, i < MD.hashRun src p → src.get? (p + i) = some 35 := by
  intro i
  induction i with
  | zero =>
    intro p hi
    by_contra hc
    rw [Nat.add_zero] at hc
    rw [hashRun_stop hc] at hi
    omega
  | succ i ih =>
    intro p hi
    have h0 : src.get? p = some 35 := by
      by_contra hc
      rw [hashRun_stop hc] at hi
      omega
    rw [hashRun_cons h0] at hi
    have := ih (p + 1) (by omega)
    rw [show p + (i + 1) = p + 1 + i from by omega]
    exact this

theorem hashRun_end (src : List Nat) (p : Nat) :
    src.get? (p + MD.hashRun src p) ≠ some 35 := by
  generalize hn : MD.hashRun src p = n
  induction n generalizing p with
  | zero =>
    intro hc
    rw [Nat.add_zero] at hc
    rw [hashRun_cons hc] at hn
    omega
  | succ n ih =>
    have h0 : src.get? p = some 35 := by
      by_contra hc
      rw [hashRun_stop hc] at hn
      omega
    have h1 : MD.hashRun src (p + 1) = n := by
      rw [hashRun_cons h0] at hn
      omega
    have := ih (p + 1) h1
    rw [show p + (n + 1) = p + 1 + n from by omega]
    exact this

/-- The capped depth loop reaches `min (hashRun) fuel` with the invariant
`depth + fuel = 6`. -/
theorem headDepthF_spec (src : List Nat) :
    ∀ f p d, d + f = 6 →
      MD.headDepthF src f p d =
        (p + min (MD.hashRun src p) f, d + min (MD.hashRun src p) f) := by
  intro f
  induction f with
  | zero => intro p d _; simp [MD.headDepthF]
  | succ f ih =>
    intro p d hd
    rw [MD.headDepthF]
    by_cases h35 : src.get? p = some 35
    · have hcond : src.get? p = some 35 ∧ d < 6 := ⟨h35, by omega⟩
      rw [if_pos hcond]
      rw [ih (p + 1) (d + 1) (by omega)]
      have hrun : MD.hashRun src p = MD.hashRun src (p + 1) + 1 := hashRun_cons h35
      rw [hrun]
      have hmin : min (MD.hashRun src (p + 1) + 1) (f + 1) =
          min (MD.hashRun src (p + 1)) f + 1 := Nat.succ_min_succ _ _
      rw [hmin]
      simp only [Prod.mk.injEq]
      omega
    · have hcond : ¬(src.get? p = some 35 ∧ d < 6) := by tauto
      rw [if_neg hcond]
      rw [hashRun_stop h35]
      simp

/-- C6: from a block starting with `#`, when the `#` run has length 1..6
and is followed by a space, a newline or end of input, both scanners emit
a heading whose recorded depth (tree payload and binary flags byte)
equals the run length; with any other byte after the run, the cursor
resets to the block start and both scanners produce exactly the paragraph
scan of the same block. -/
theorem c6_heading_depth_or_paragraph (src : List Nat) (pos line : Nat)
    (h : src.get? pos = some 35) :
    (MD.hashRun src pos ≤ 6 ∧ MD.headFollow (src.get? (pos + MD.hashRun src pos)) →
      ((MD.scanHeadingNode src pos line ⟨pos, line⟩).1.map (fun n => n.nodeType)) =
          some "heading" ∧
        ((MD.scanHeadingNode src pos line ⟨pos, line⟩).1.map
            (fun n => MD.dataLookup (n.data.getD []) "depth")) =
          some (some (.n (MD.hashRun src pos))) ∧
        ((MD.scanHeadingBinary src pos line ⟨pos, line⟩).1.map
            (fun n => n.nodeType)) = some MD.tHEADING ∧
        ((MD.scanHeadingBinary src pos line ⟨pos, line⟩).1.map
            (fun n => n.flags)) = some (MD.hashRun src pos)) ∧
    (¬(MD.hashRun src pos ≤ 6 ∧ MD.headFollow (src.get? (pos + MD.hashRun src pos))) →
      MD.scanHeadingNode src pos line ⟨pos, line⟩ =
          MD.scanParagraphNode src pos line ⟨pos, line⟩ ∧
        MD.scanHeadingBinary src pos line ⟨pos, line⟩ =
          MD.scanParagraphBinary src pos line ⟨pos, line⟩) := by
  have hdep := headDepthF_spec src 6 pos 0 rfl
  constructor
  · intro hok
    obtain ⟨hle, hfol⟩ := hok
    have hmin : min (MD.hashRun src pos) 6 = MD.hashRun src pos := by omega
    rw [hmin] at hdep
    unfold MD.headFollow at hfol
    refine ⟨?_, ?_, ?_, ?_⟩ <;>
      · simp only [MD.scanHeadingNode, MD.scanHeadingBinary, hdep, Nat.zero_add]
        rw [if_pos hfol]
        simp [MD.TNode.mk0, MD.dataLookup, MD.BinaryNode.zero, MD.tHEADING]
  · intro hbad
    by_cases hle : MD.hashRun src pos ≤ 6
    · have hfol : ¬ MD.headFollow (src.get? (pos + MD.hashRun src pos)) := by tauto
      have hmin : min (MD.hashRun src pos) 6 = MD.hashRun src pos := by omega
      rw [hmin] at hdep
      unfold MD.headFollow at hfol
      constructor <;>
        · simp only [MD.scanHeadingNode, MD.scanHeadingBinary, hdep, Nat.zero_add]
          rw [if_neg hfol]
    · have hmin : min (MD.hashRun src pos) 6 = 6 := by omega
      rw [hmin] at hdep
      have h6 : src.get? (pos + 6) = some 35 := hashRun_byte 6 pos (by omega)
      have hfol : ¬(src.get? (pos + 6) = some 32 ∨ src.get? (pos + 6) = some 10 ∨
          src.get? (pos + 6) = none) := by
        rw [h6]
        simp
      constructor <;>
        · simp only [MD.scanHeadingNode, MD.scanHeadingBinary, hdep, Nat.zero_add]
          rw [if_neg hfol]

/-- C6 witness: on the block `# a` at position 0 the run length is 1 and
a space follows, so both scanners emit a depth-1 heading. -/
theorem c6_heading_depth_or_paragraph_witness :
    ((MD.scanHeadingNode [35, 32, 97] 0 1 ⟨0, 1⟩).1.map (fun n => n.nodeType)) =
        some "heading" ∧
      ((MD.scanHeadingBinary [35, 32, 97] 0 1 ⟨0, 1⟩).1.map (fun n => n.flags)) =
        some 1 :=
  have h := (c6_heading_depth_or_paragraph [35, 32, 97] 0 1 rfl).1 (by decide)
  ⟨h.1, h.2.2.2⟩


/-! ### Markdown scanner position lemmas -/

theorem skipHSF_ge (src : List Nat) : ∀ f p, p ≤ MD.skipHSF src f p := by
  intro f
  induction f with
  | zero => intro p; simp [MD.skipHSF]
  | succ f ih =>
    intro p
    rw [MD.skipHSF]
    cases hg : src.get? p with
    | none => simp
    | some b =>
      by_cases hb : b = 32 ∨ b = 9
      · simp only [hb, if_true]
        have := ih (p + 1)
        omega
      · simp [hb]

theorem skipHSF_le (src : List Nat) : ∀ f p, MD.skipHSF src f p ≤ max p src.length := by
  intro f
  induction f with
  | zero => intro p; simp [MD.skipHSF]
  | succ f ih =>
    intro p
    rw [MD.skipHSF]
    cases hg : src.get? p with
    | none => simp
    | some b =>
      by_cases hb : b = 32 ∨ b = 9
      · simp only [hb, if_true]
        have h1 := ih (p + 1)
        have h2 : p < src.length := get?_lt_length hg
        omega
      · simp [hb]

theorem skipHS_ge (src : List Nat) (p : Nat) : p ≤ MD.skipHS src p :=
  skipHSF_ge src _ p

theorem skipHS_le (src : List Nat) (p : Nat) : MD.skipHS src p ≤ max p src.length :=
  skipHSF_le src _ p

theorem findNewline_le (src : List Nat) (p : Nat) :
    MD.findNewline src p ≤ src.length := by
  unfold MD.findNewline
  cases hf : findFrom 10 (src.drop p) with
  | none => simp
  | some i =>
    have h1 := findFrom_le_length 10 _ i hf
    rw [List.length_drop] at h1
    simp only
    omega

theorem findNewline_ge (src : List Nat) (p : Nat) (h : p ≤ src.length) :
    p ≤ MD.findNewline src p := by
  unfold MD.findNewline
  cases hf : findFrom 10 (src.drop p) with
  | none => simpa using h
  | some i => simp

theorem skipToNewline_le (src : List Nat) (st : MD.St) :
    (MD.skipToNewline src st).pos ≤ src.length := by
  have h2 := findNewline_le src st.pos
  simp only [MD.skipToNewline]
  split
  · simp only
    omega
  · simp only
    omega

theorem skipToNewline_ge (src : List Nat) (st : MD.St) (h : st.pos ≤ src.length) :
    st.pos ≤ (MD.skipToNewline src st).pos := by
  have h1 := findNewline_ge src st.pos h
  simp only [MD.skipToNewline]
  split
  · simp only
    omega
  · simp only
    omega

theorem skipToNewline_gt (src : List Nat) (st : MD.St) (h : st.pos < src.length) :
    st.pos < (MD.skipToNewline src st).pos := by
  have h1 := findNewline_ge src st.pos (by omega)
  have h2 := findNewline_le src st.pos
  simp only [MD.skipToNewline]
  split
  · simp only
    omega
  · next hc =>
    simp only
    omega

theorem paraLoopF_pos (src : List Nat) :
    ∀ f (st : MD.St), st.pos < src.length → 0 < f →
      st.pos < (MD.paraLoopF src f st).pos ∧ (MD.paraLoopF src f st).pos ≤ src.length := by
  intro f
  induction f with
  | zero => intro st _ h0; omega
  | succ f ih =>
    intro st hlt _
    have hgt := skipToNewline_gt src st hlt
    have hle := skipToNewline_le src st
    simp only [MD.paraLoopF]
    split
    · exact ⟨hgt, hle⟩
    · split
      · exact ⟨hgt, hle⟩
      · split
        · exact ⟨hgt, hle⟩
        · split
          · exact ⟨hgt, hle⟩
          · next hend _ _ _ =>
            cases Nat.eq_zero_or_pos f with
            | inl h0 =>
              subst h0
              simp only [MD.paraLoopF]
              exact ⟨hgt, hle⟩
            | inr hpos =>
              have := ih (MD.skipToNewline src st) (by omega) hpos
              omega

theorem codeSearchF_pos (src : List Nat) :
    ∀ f (st : MD.St), st.pos ≤ src.length →
      st.pos ≤ (MD.codeSearchF src f st).2.pos ∧
        (MD.codeSearchF src f st).2.pos ≤ src.length := by
  intro f
  induction f with
  | zero => intro st h; simp only [MD.codeSearchF]; omega
  | succ f ih =>
    intro st h
    simp only [MD.codeSearchF]
    split
    · simp only
      omega
    · split
      · next rel hfind =>
        have hrel := findFrom_le_length 96 _ rel hfind
        rw [List.length_drop] at hrel
        split
        · next htr =>
          have h2 := get?_lt_length htr.2
          have hle := skipToNewline_le src
            ⟨st.pos + rel + 3, st.line + countInRange 10 src st.pos (st.pos + rel)⟩
          have hge := skipToNewline_ge src
            ⟨st.pos + rel + 3, st.line + countInRange 10 src st.pos (st.pos + rel)⟩
            (by simp only; omega)
          simp only at hle hge ⊢
          omega
        · have := ih ⟨st.pos + rel + 1, st.line⟩ (by simp only; omega)
          simp only at this ⊢
          omega
      · simp only
        omega

theorem codeSearchF_none (src : List Nat) :
    ∀ f (st : MD.St), st.pos ≤ src.length → src.length + 1 - st.pos ≤ f →
      (MD.codeSearchF src f st).1 = none → src.length ≤ (MD.codeSearchF src f st).2.pos := by
  intro f
  induction f with
  | zero => intro st h hf; omega
  | succ f ih =>
    intro st h hf
    simp only [MD.codeSearchF]
    split
    · next hend =>
      intro _
      simp only
      omega
    · split
      · next rel hfind =>
        have hrel := findFrom_le_length 96 _ rel hfind
        rw [List.length_drop] at hrel
        split
        · simp
        · have := ih ⟨st.pos + rel + 1, st.line⟩ (by simp only; omega) (by simp only; omega)
          simp only at this ⊢
          exact this
      · simp

end Synth
